import Mathlib

/-!
# happy_srv v1: middleware chain, request context and typed handler adapter

A shallow embedding of `src/v1/{tac,request_context,middleware,typed_middleware}.go`.

Conventions of the embedding.

* Mutable Go objects reached through pointers (the response sink, the status
  interceptor, the request body reader, the logger output, everything else a
  handler may touch) live in an explicit `State` that is passed through every
  call.
* A Go `error` is `Option Error` (`none` is `nil`); a Go pair of results is a Lean
  pair.
* Calls made by `ServeHTTP` and by the typed adapter to their collaborators are
  recorded, in program order, in a list of call records that is returned next to
  the Go result.  A record is appended exactly where the source has the call.
* Collaborators outside this repository (`encoding/json`, `io`, `net/http`,
  the metrics and logger packages) are either parameters or small models that
  keep only what the source observes of them.
-/

namespace HappySrv

/-! ## tac.go -/

def HeaderContentType : String := "Content-Type"
def HeaderRequestId : String := "X-Request-ID"
def ContentTypeJSON : String := "application/json"
def ContentTypeText : String := "text/plain"

/-! ## Values of the Go runtime and of net/http that the source observes -/

/-- A byte slice.  Payloads are kept as text; `[]byte(text)` is the identity. -/
abbrev Bytes := String

/-- Go `error` values: the two sentinels the source names, and any other error
produced by a collaborator. -/
inductive Error where
  | unsupportedContentType
  | ErrNoCookie
  | foreign (msg : String)
  deriving DecidableEq, Repr

/-- The package variable `unsupportedContentType` of request_context.go. -/
def unsupportedContentType : Error := Error.unsupportedContentType

/-- The `http.Header` map of a request: key to list of values. -/
abbrev Header := List (String × List String)

/-- `Header.Get`: the first value stored under the key, `""` when there is none.
Keys are compared by exact name: net/http canonicalises the stored key and the
looked-up key alike, which is left out here, so a model header stores a key in
the spelling the source looks it up with. -/
def Header.Get (h : Header) (key : String) : String :=
  match h.lookup key with
  | some (v :: _) => v
  | _ => ""

/-- An `http.Cookie` as sent by a client: name and value. -/
structure Cookie where
  Name : String
  Value : String
  deriving DecidableEq, Repr

/-- The immutable part of an `*http.Request`.  `Cookies` is the list of cookies
that net/http parses out of the `Cookie` header lines, `Query` is `r.URL.Query()`,
`ctxTimeout` is the timeout of the request context once `ServeHTTP` derived one.
The body reader is stateful and lives in `State.body`. -/
structure Request where
  Method : String := "GET"
  Path : String := "/"
  Header : Header := []
  Cookies : List Cookie := []
  Query : List (String × List String) := []
  ctxTimeout : Option Int := none
  deriving DecidableEq, Repr

/-- `(*http.Request).Cookie`: the first cookie of that name, or `ErrNoCookie`. -/
def Request.Cookie (r : Request) (name : String) : Option Cookie × Option Error :=
  if name = "" then (none, some Error.ErrNoCookie)
  else
    match r.Cookies.find? (fun c => c.Name = name) with
    | some c => (some c, none)
    | none => (none, some Error.ErrNoCookie)

/-- The request body reader `r.Body`.  `data` is the unread payload, `err` the
transport error the reader reports instead of a clean end of input, `limit` the
bound installed by `http.MaxBytesReader`, `reads` counts how many times the
reader has been drained. -/
structure Body where
  data : Bytes := ""
  err : Option Error := none
  limit : Option Int := none
  reads : Nat := 0
  deriving DecidableEq, Repr

/-- `http.MaxBytesReader(w, body, n)`. -/
def MaxBytesReader (b : Body) (n : Int) : Body := { b with limit := some n }

/-- `io.ReadAll(r.Body)`: the whole unread payload, or the error of the reader
(a transport error, or the limit of `MaxBytesReader` exceeded).  The partial
data Go returns next to an error is dropped, as its only caller drops it. -/
def ioReadAll (b : Body) : (Bytes × Option Error) × Body :=
  let b1 : Body := { b with data := "", reads := b.reads + 1 }
  match b.limit with
  | some n =>
    if n < (b.data.utf8ByteSize : Int) then
      (("", some (Error.foreign "http: request body too large")), b1)
    else
      match b.err with
      | some e => (("", some e), b1)
      | none => ((b.data, none), b1)
  | none =>
    match b.err with
    | some e => (("", some e), b1)
    | none => ((b.data, none), b1)

/-- One call received by the raw `http.ResponseWriter`. -/
inductive SinkCall where
  | HeaderSet (key value : String)
  | WriteHeader (status : Int)
  | Write (data : Bytes)
  deriving DecidableEq, Repr

/-- The raw `http.ResponseWriter`: the calls it received, in order, and the error
its `Write` reports (`none`: writes succeed). -/
structure ResponseWriter where
  calls : List SinkCall := []
  writeErr : Option Error := none
  deriving DecidableEq, Repr

/-- Modelled from the spec: the type `responseStatusInterceptor` and its
constructor `newResponseStatusInterceptor` are missing from the sources.  Spec 4.4:
it wraps a response sink, passes all writes through unmodified, records the status
of the first explicit status-set call, and reports the implicit default status 200
when the first write comes without one; 0 is the unset sentinel. -/
structure responseStatusInterceptor where
  w : ResponseWriter
  statusCode : Int
  deriving DecidableEq, Repr

/-- Modelled from the spec: constructor of the missing interceptor; the status
starts at the unset sentinel. -/
def newResponseStatusInterceptor (w : ResponseWriter) : responseStatusInterceptor :=
  { w := w, statusCode := 0 }

/-- Modelled from the spec: `Header().Set` of the missing interceptor passes
through to the sink. -/
def responseStatusInterceptor.HeaderSet (i : responseStatusInterceptor)
    (key value : String) : responseStatusInterceptor :=
  { i with w := { i.w with calls := i.w.calls ++ [SinkCall.HeaderSet key value] } }

/-- Modelled from the spec: `WriteHeader` of the missing interceptor records the
first status and passes the call through. -/
def responseStatusInterceptor.WriteHeader (i : responseStatusInterceptor)
    (status : Int) : responseStatusInterceptor :=
  { w := { i.w with calls := i.w.calls ++ [SinkCall.WriteHeader status] },
    statusCode := if i.statusCode = 0 then status else i.statusCode }

/-- Modelled from the spec: `Write` of the missing interceptor passes the data
through and makes the implicit status 200 observable. -/
def responseStatusInterceptor.Write (i : responseStatusInterceptor)
    (data : Bytes) : Option Error × responseStatusInterceptor :=
  (i.w.writeErr,
   { w := { i.w with calls := i.w.calls ++ [SinkCall.Write data] },
     statusCode := if i.statusCode = 0 then 200 else i.statusCode })

/-- A `logger.Logger`: the key/value pairs bound with `With`. -/
structure Logger where
  fields : List (String × String) := []
  deriving DecidableEq, Repr

/-- `Logger.With(key, value)`. -/
def Logger.With (l : Logger) (key value : String) : Logger :=
  { fields := l.fields ++ [(key, value)] }

/-- One warning written by a logger: its bound fields, the format and the
arguments. -/
structure LogEntry where
  fields : List (String × String)
  format : String
  args : List String
  deriving DecidableEq, Repr

/-- Everything mutable during one request: the interceptor `*rc.w`, the body
reader `r.Body`, the log output, a clock, and the part of the world `W` that
handlers and collaborators own. -/
structure State (W : Type) where
  w : responseStatusInterceptor
  body : Body
  logs : List LogEntry
  clock : Int
  world : W

/-- `Logger.Warnf`. -/
def Logger.Warnf {W : Type} (l : Logger) (format : String) (args : List String)
    (s : State W) : State W :=
  { s with logs := s.logs ++ [{ fields := l.fields, format := format, args := args }] }

/-! ## request_context.go -/

/-- The struct `requestContext`.  The pointer fields `w` and `r.Body` are in
`State`. -/
structure requestContext where
  log : Logger
  r : Request
  requestId : String
  deriving DecidableEq, Repr

def requestContext.Log (m : requestContext) : Logger := m.log

def requestContext.RequestId (m : requestContext) : String := m.requestId

/-- The method `Send` of `requestContext`. -/
def requestContext.Send {W : Type} (m : requestContext) (status : Int)
    (contentType : String) (dataOpt : Bytes) (s : State W) : State W :=
  let s1 : State W :=
    if contentType ≠ "" then { s with w := s.w.HeaderSet HeaderContentType contentType }
    else s
  let s2 : State W := { s1 with w := s1.w.WriteHeader status }
  if 0 < dataOpt.length then
    match s2.w.Write dataOpt with
    | (some writeErr, i) =>
      m.log.Warnf "Error writing: %s" [toString (repr writeErr)] { s2 with w := i }
    | (none, i) => { s2 with w := i }
  else s2

/-- The method `SendText` of `requestContext`. -/
def requestContext.SendText {W : Type} (m : requestContext) (status : Int)
    (text : String) (s : State W) : State W :=
  m.Send status ContentTypeText text s

/-- The method `SendJSON` of `requestContext`; `Marshal` is `json.Marshal` at the
type of `obj`. -/
def requestContext.SendJSON {W α : Type} (Marshal : α → Bytes × Option Error)
    (m : requestContext) (status : Int) (obj : α) (s : State W) : State W :=
  match Marshal obj with
  | (_, some err) =>
    let s1 := m.log.Warnf "%s %s: error marshalling object %v: %s"
      [m.r.Method, m.r.Path, "obj", toString (repr err)] s
    m.SendText 500 "Marshalling error" s1
  | (d, none) => m.Send status ContentTypeJSON d s

/-- The method `ReadJSONBody` of `requestContext`; `Unmarshal` is `json.Unmarshal`
at the type of `dest` (it may write to `dest` before it fails).  Returns the
destination as the call leaves it and the error. -/
def requestContext.ReadJSONBody {W α : Type} (Unmarshal : Bytes → α → α × Option Error)
    (m : requestContext) (dest : α) (s : State W) : (α × Option Error) × State W :=
  if m.r.Header.Get HeaderContentType ≠ ContentTypeJSON then
    ((dest, some unsupportedContentType), s)
  else
    match ioReadAll s.body with
    | ((_, some err), b) => ((dest, some err), { s with body := b })
    | ((body, none), b) =>
      match Unmarshal body dest with
      | (dest1, some err) => ((dest1, some err), { s with body := b })
      | (dest1, none) => ((dest1, none), { s with body := b })

/-- The interface `RequestContext`, as far as the typed adapter and its handler
use it, at the request type `Req` and response type `Resp` of one adapter and over
a state `S`.  `ReadJSONBody` returns the destination as the call leaves it. -/
structure RequestContext (S Req Resp : Type) where
  RequestId : String
  ReadJSONBody : Req → S → (Req × Option Error) × S
  Send : Int → String → Bytes → S → S
  SendText : Int → String → S → S
  SendJSON : Int → Option Resp → S → S

/-- The interface value `&rc` of a `requestContext`, with the JSON codec of the
two types. -/
def requestContext.iface {W Req Resp : Type} (m : requestContext)
    (Unmarshal : Bytes → Req → Req × Option Error)
    (Marshal : Option Resp → Bytes × Option Error) :
    RequestContext (State W) Req Resp :=
  { RequestId := m.RequestId
    ReadJSONBody := m.ReadJSONBody Unmarshal
    Send := m.Send
    SendText := m.SendText
    SendJSON := m.SendJSON Marshal }

/-! ## typed_middleware.go -/

def tagQuery : String := "query"
def tagHeader : String := "header"
def tagCookie : String := "cookie"
def tagContext : String := "context"
def tagBody : String := "json"

/-- A `reflect.StructField`: the field name and its struct tag as key/value
pairs. -/
structure StructField where
  Name : String
  Tag : List (String × String)
  deriving DecidableEq, Repr

/-- `reflect.StructTag.Lookup`. -/
def StructTag.Lookup (tag : List (String × String)) (key : String) : String × Bool :=
  match tag.lookup key with
  | some v => (v, true)
  | none => ("", false)

/-- A resolver `func(name string) (value any, found bool)`; the value is a string
or nil. -/
abbrev Resolver := String → Option String × Bool

/-- The signature of the package function `Enrich(dest, tag, resolver)`, which
the sources do not contain: it returns the destination as the call leaves it and
the error (its first Go result is discarded by every caller). -/
abbrev EnrichFn (Req : Type) := Req → String → Resolver → Req × Option Error

/-- The struct `typedMiddleware[RequestT, ResponseT]`.  The typed handler gets the
record and the request context and returns `(*ResponseT, error)`. -/
structure typedMiddleware (S Req Resp : Type) where
  readBody : Bool
  readHeaders : Bool
  readCookie : Bool
  readContext : Bool
  readQuery : Bool
  handler : Req → RequestContext S Req Resp → S → (Option Resp × Option Error) × S

/-- The five locals `query, header, cookie, context, body` of
`NewTypedMiddleware`. -/
structure tagFlags where
  query : Bool := false
  header : Bool := false
  cookie : Bool := false
  context : Bool := false
  body : Bool := false
  deriving DecidableEq, Repr

/-- The body of the loop of `NewTypedMiddleware` for one field `tf`. -/
def NewTypedMiddleware.step (fl : tagFlags) (tf : StructField) : tagFlags :=
  let fl1 := if (StructTag.Lookup tf.Tag tagQuery).2 then { fl with query := true } else fl
  let fl2 := if (StructTag.Lookup tf.Tag tagHeader).2 then { fl1 with header := true } else fl1
  let fl3 := if (StructTag.Lookup tf.Tag tagCookie).2 then { fl2 with cookie := true } else fl2
  let fl4 := if (StructTag.Lookup tf.Tag tagContext).2 then { fl3 with context := true } else fl3
  if (StructTag.Lookup tf.Tag tagBody).2 then { fl4 with body := true } else fl4

/-- The loop of `NewTypedMiddleware` over the fields of the request type. -/
def NewTypedMiddleware.scan (fields : List StructField) : tagFlags :=
  fields.foldl NewTypedMiddleware.step {}

/-- `NewTypedMiddleware`; `fields` are the fields of the struct type `RequestT`
in declaration order. -/
def NewTypedMiddleware {S Req Resp : Type} (fields : List StructField)
    (h : Req → RequestContext S Req Resp → S → (Option Resp × Option Error) × S) :
    typedMiddleware S Req Resp :=
  let fl := NewTypedMiddleware.scan fields
  { readBody := fl.body
    readHeaders := fl.header
    readCookie := fl.cookie
    readContext := fl.context
    readQuery := fl.query
    handler := h }

/-- The resolver of the header pass (typed_middleware.go lines 77-80). -/
def headerResolver (r : Request) : Resolver := fun name =>
  let value := r.Header.Get name
  (some value, value ≠ "")

/-- The resolver of the cookie pass (typed_middleware.go lines 88-100). -/
def cookieResolver (r : Request) : Resolver := fun name =>
  match r.Cookie name with
  | (_, some err) =>
    if err = Error.ErrNoCookie then (none, false)
    else (none, false)
  | (none, none) => (none, false)
  | (some cookie, none) => (some cookie.Value, true)

/-- The resolver of the query pass (typed_middleware.go lines 121-127). -/
def queryResolver (r : Request) : Resolver := fun name =>
  match r.Query.lookup name with
  | some (v :: _) => (some v, true)
  | _ => (none, false)

/-- A call the chain handler of the typed adapter makes, as the source writes it. -/
inductive Call (Req Resp : Type) where
  | ReadJSONBody
  | SendText (status : Int) (text : String)
  | Enrich (tag : String)
  | handler (req : Req)
  | SendJSON (status : Int) (obj : Option Resp)

/-- What the chain handler returns: `proceed`, the calls it made, the state. -/
abbrev Outcome (S Req Resp : Type) := (Bool × List (Call Req Resp)) × S

/-- The locals of a running chain handler: the record `req`, the state, and the
calls made so far. -/
structure Progress (S Req Resp : Type) where
  req : Req
  st : S
  calls : List (Call Req Resp)

/-- Lines 69-74: the body pass.  `Except.error` is an early `return`. -/
def typedMiddleware.bodyPass {S Req Resp : Type} (c : typedMiddleware S Req Resp)
    (rc : RequestContext S Req Resp) (p : Progress S Req Resp) :
    Except (Outcome S Req Resp) (Progress S Req Resp) :=
  if c.readBody then
    match rc.ReadJSONBody p.req p.st with
    | ((_, some _), s1) =>
      Except.error
        ((false, p.calls ++ [Call.ReadJSONBody, Call.SendText 500 "Error parsing body"]),
         rc.SendText 500 "Error parsing body" s1)
    | ((req1, none), s1) =>
      Except.ok { req := req1, st := s1, calls := p.calls ++ [Call.ReadJSONBody] }
  else Except.ok p

/-- Lines 76-85, 87-105 and 120-132: one enrichment pass, guarded by its flag;
the three blocks differ in the flag, the tag and the resolver only. -/
def typedMiddleware.enrichPass {S Req Resp : Type} (flag : Bool) (tag : String)
    (resolver : Resolver) (Enrich : EnrichFn Req) (p : Progress S Req Resp) :
    Except (Outcome S Req Resp) (Progress S Req Resp) :=
  if flag then
    match Enrich p.req tag resolver with
    | (_, some _) => Except.error ((false, p.calls ++ [Call.Enrich tag]), p.st)
    | (req1, none) =>
      Except.ok { req := req1, st := p.st, calls := p.calls ++ [Call.Enrich tag] }
  else Except.ok p

/-- Lines 134-144: the call of the typed handler and the response. -/
def typedMiddleware.invoke {S Req Resp : Type} (c : typedMiddleware S Req Resp)
    (rc : RequestContext S Req Resp) (p : Progress S Req Resp) : Outcome S Req Resp :=
  match c.handler p.req rc p.st with
  | ((_, some _), s1) => ((false, p.calls ++ [Call.handler p.req]), s1)
  | ((result, none), s1) =>
    ((false, p.calls ++ [Call.handler p.req, Call.SendJSON 200 result]),
     rc.SendJSON 200 result s1)

/-- The passes of the chain handler in source order: body, header, cookie,
query (the context pass is commented out in the source). -/
def typedMiddleware.passes {S Req Resp : Type} (c : typedMiddleware S Req Resp)
    (Enrich : EnrichFn Req) (zero : Req) (r : Request) (rc : RequestContext S Req Resp)
    (s : S) : Except (Outcome S Req Resp) (Progress S Req Resp) :=
  match c.bodyPass rc { req := zero, st := s, calls := [] } with
  | Except.error out => Except.error out
  | Except.ok p1 =>
    match typedMiddleware.enrichPass c.readHeaders tagHeader (headerResolver r) Enrich p1 with
    | Except.error out => Except.error out
    | Except.ok p2 =>
      match typedMiddleware.enrichPass c.readCookie tagCookie (cookieResolver r) Enrich p2 with
      | Except.error out => Except.error out
      | Except.ok p3 =>
        typedMiddleware.enrichPass c.readQuery tagQuery (queryResolver r) Enrich p3

/-- The closure returned by `Handler()`, with the calls it makes.  `zero` is the
zero value of `RequestT` (`var req RequestT`). -/
def typedMiddleware.Handler {S Req Resp : Type} (c : typedMiddleware S Req Resp)
    (Enrich : EnrichFn Req) (zero : Req) (r : Request) (rc : RequestContext S Req Resp)
    (s : S) : Outcome S Req Resp :=
  match c.passes Enrich zero r rc s with
  | Except.error out => out
  | Except.ok p => c.invoke rc p

/-! ## middleware.go -/

/-- The type `HttpHandler`: `func(r *http.Request, rc RequestContext) (proceed bool)`.
The handlers of a chain receive the `requestContext` built by `ServeHTTP`. -/
abbrev HttpHandler (W : Type) := Request → requestContext → State W → Bool × State W

/-- The interface `metrics.HTTPServerMetrics`: both methods act on the world. -/
structure HTTPServerMetrics (W : Type) where
  ObserveRequestDuration : String → Int → Int → Int → W → W
  IncNbRequest : String → Int → Int → W → W

/-- The struct `middleware`.  `metrics` and `requestIdGenerator` are nil-able. -/
structure middleware (W : Type) where
  log : Logger
  handlers : List (HttpHandler W)
  requestTimeout : Int
  withMetrics : Bool
  metrics : Option (HTTPServerMetrics W)
  metricsMethod : String
  requestIdGenerator : Option (Request → W → String × W)
  maxReadBytes : Int

/-- `NewMiddleware`: every field but `log` and `withMetrics` has its zero value. -/
def NewMiddleware {W : Type} (log : Logger) : middleware W :=
  { log := log
    handlers := []
    requestTimeout := 0
    withMetrics := false
    metrics := none
    metricsMethod := ""
    requestIdGenerator := none
    maxReadBytes := 0 }

/-- The method `Use`. -/
def middleware.Use {W : Type} (mw : middleware W) (h : HttpHandler W) : middleware W :=
  { mw with handlers := mw.handlers ++ [h] }

/-- The method `WithMetrics`. -/
def middleware.WithMetrics {W : Type} (mw : middleware W) (m : HTTPServerMetrics W)
    (method : String) : middleware W :=
  { mw with metrics := some m, metricsMethod := method }

/-- The method `WithTimeoutContext`. -/
def middleware.WithTimeoutContext {W : Type} (mw : middleware W) (timeout : Int) :
    middleware W :=
  { mw with requestTimeout := timeout }

/-- The method `WithRequestIdGenerator`; `none` is a nil function. -/
def middleware.WithRequestIdGenerator {W : Type} (mw : middleware W)
    (g : Option (Request → W → String × W)) : middleware W :=
  { mw with requestIdGenerator := g }

/-- The method `WithMaxBytesReader`. -/
def middleware.WithMaxBytesReader {W : Type} (mw : middleware W) (maxBytes : Int) :
    middleware W :=
  { mw with maxReadBytes := maxBytes }

/-- `RequestIdGeneratorUUID`; `NewRandom` is `uuid.NewRandom` followed by
`String()`. -/
def RequestIdGeneratorUUID {W : Type} (NewRandom : W → (String × Option Error) × W)
    (_r : Request) (world : W) : String × W :=
  match NewRandom world with
  | ((UUID, none), world1) => (UUID, world1)
  | ((_, some _), world1) => ("", world1)

/-- A call `ServeHTTP` makes, as the source writes it.  `handler index id` is the
call `h(r, &rc)` of the handler at position `index`, `id` being `rc.RequestId()`. -/
inductive Event where
  | generator
  | HeaderSet (key value : String)
  | handler (index : Nat) (requestId : String)
  | cancel
  | ObserveRequestDuration (method : String) (statusCode size duration : Int)
  | IncNbRequest (method : String) (statusCode size : Int)
  deriving DecidableEq, Repr

/-- Lines 85-90: the handler loop, from the handler at position `i` on. -/
def middleware.runHandlers {W : Type} (hs : List (HttpHandler W)) (i : Nat) (r : Request)
    (rc : requestContext) (s : State W) : List Event × State W :=
  match hs with
  | [] => ([], s)
  | h :: rest =>
    match h r rc s with
    | (proceed, s1) =>
      if !proceed then ([Event.handler i rc.RequestId], s1)
      else
        match middleware.runHandlers rest (i + 1) r rc s1 with
        | (evs, s2) => (Event.handler i rc.RequestId :: evs, s2)

/-- What one `ServeHTTP` call leaves: the calls it made in order, the final
state, the request id it resolved, and whether it ended in a nil-dereference
panic (metrics enabled without a metrics sink). -/
structure Served (W : Type) where
  events : List Event
  final : State W
  requestId : String
  panicked : Bool

/-- Lines 52-55: the request id and the calls made to resolve it. -/
def middleware.resolveRequestId {W : Type} (mw : middleware W) (r : Request) (world : W) :
    (String × List Event) × W :=
  let requestId := r.Header.Get HeaderRequestId
  if requestId = "" then
    match mw.requestIdGenerator with
    | some g =>
      match g r world with
      | (id, world1) => ((id, [Event.generator]), world1)
    | none => ((requestId, []), world)
  else ((requestId, []), world)

/-- The deferred calls of `ServeHTTP`, in the order they run: `cancel` (registered
second) and then the metrics closure (registered first), which reads `statusCode`
as the end of the function left it. -/
def middleware.deferred {W : Type} (mw : middleware W) (startTm : Int) (statusCode : Int)
    (s : State W) : (List Event × Bool) × State W :=
  let cancelEv : List Event := if 0 < mw.requestTimeout then [Event.cancel] else []
  if mw.withMetrics then
    match mw.metrics with
    | some m =>
      let d := s.clock - startTm
      ((cancelEv ++ [Event.ObserveRequestDuration mw.metricsMethod statusCode 0 d,
                     Event.IncNbRequest mw.metricsMethod statusCode 0], false),
       { s with world := m.IncNbRequest mw.metricsMethod statusCode 0
                  (m.ObserveRequestDuration mw.metricsMethod statusCode 0 d s.world) })
    | none => ((cancelEv, true), s)
  else ((cancelEv, false), s)

/-- The locals of `ServeHTTP` when it enters the handler loop: the request id, the
calls made so far, the request `r` (with its derived context), the request
context `rc`, and the state (the interceptor around the sink, the body reader). -/
structure Prepared (W : Type) where
  requestId : String
  events : List Event
  r : Request
  rc : requestContext
  state : State W

/-- Lines 51-83 of `ServeHTTP`: everything between the metrics block and the
handler loop.  `body` is `r.Body`; `logs`, `clock`, `world` are the log output,
the time and the rest of the world at entry. -/
def middleware.prepare {W : Type} (mw : middleware W) (w : ResponseWriter) (r : Request)
    (body : Body) (logs : List LogEntry) (clock : Int) (world : W) : Prepared W :=
  match mw.resolveRequestId r world with
  | ((requestId, genEvs), world1) =>
    let w1 : ResponseWriter :=
      if requestId ≠ "" then
        { w with calls := w.calls ++ [SinkCall.HeaderSet HeaderRequestId requestId] }
      else w
    let setEvs : List Event :=
      if requestId ≠ "" then [Event.HeaderSet HeaderRequestId requestId] else []
    let r1 : Request :=
      if 0 < mw.requestTimeout then { r with ctxTimeout := some mw.requestTimeout } else r
    let body1 : Body :=
      if 0 < mw.maxReadBytes then MaxBytesReader body mw.maxReadBytes else body
    let interceptor := newResponseStatusInterceptor w1
    { requestId := requestId
      events := genEvs ++ setEvs
      r := r1
      rc := { log := mw.log.With "request-id" requestId, r := r1, requestId := requestId }
      state := { w := interceptor, body := body1, logs := logs, clock := clock,
                 world := world1 } }

/-- The method `ServeHTTP(w, r)`. -/
def middleware.ServeHTTP {W : Type} (mw : middleware W) (w : ResponseWriter) (r : Request)
    (body : Body) (logs : List LogEntry) (clock : Int) (world : W) : Served W :=
  let startTm : Int := if mw.withMetrics then clock else 0
  let p := mw.prepare w r body logs clock world
  match middleware.runHandlers mw.handlers 0 p.r p.rc p.state with
  | (loopEvs, s1) =>
    let statusCode := s1.w.statusCode
    match mw.deferred startTm statusCode s1 with
    | ((endEvs, panicked), s2) =>
      { events := p.events ++ loopEvs ++ endEvs
        final := s2
        requestId := p.requestId
        panicked := panicked }

/-- The chain handler of a typed adapter as an element of a chain: the closure of
`Handler()` applied to the `requestContext` of `ServeHTTP`. -/
def typedMiddleware.chainHandler {W Req Resp : Type}
    (c : typedMiddleware (State W) Req Resp) (Enrich : EnrichFn Req) (zero : Req)
    (Unmarshal : Bytes → Req → Req × Option Error)
    (Marshal : Option Resp → Bytes × Option Error) : HttpHandler W :=
  fun r rc s =>
    match c.Handler Enrich zero r (rc.iface Unmarshal Marshal) s with
    | ((proceed, _), s1) => (proceed, s1)

/-! ## Derived notions used to state the properties -/

section derived
variable {S Req Resp W : Type}

/-- The record after the body pass: decoded from the payload when the pass is
required, the zero record otherwise. -/
def recordAfterBody (c : typedMiddleware S Req Resp) (zero : Req)
    (rc : RequestContext S Req Resp) (s : S) : Req :=
  if c.readBody then (rc.ReadJSONBody zero s).1.1 else zero

/-- The state after the body pass. -/
def stateAfterBody (c : typedMiddleware S Req Resp) (zero : Req)
    (rc : RequestContext S Req Resp) (s : S) : S :=
  if c.readBody then (rc.ReadJSONBody zero s).2 else s

/-- The record after the header pass. -/
def recordAfterHeaders (c : typedMiddleware S Req Resp) (Enrich : EnrichFn Req) (zero : Req)
    (r : Request) (rc : RequestContext S Req Resp) (s : S) : Req :=
  if c.readHeaders then (Enrich (recordAfterBody c zero rc s) tagHeader (headerResolver r)).1
  else recordAfterBody c zero rc s

/-- The record after the cookie pass. -/
def recordAfterCookie (c : typedMiddleware S Req Resp) (Enrich : EnrichFn Req) (zero : Req)
    (r : Request) (rc : RequestContext S Req Resp) (s : S) : Req :=
  if c.readCookie then
    (Enrich (recordAfterHeaders c Enrich zero r rc s) tagCookie (cookieResolver r)).1
  else recordAfterHeaders c Enrich zero r rc s

/-- The fully enriched record: the record after the query pass. -/
def recordAfterQuery (c : typedMiddleware S Req Resp) (Enrich : EnrichFn Req) (zero : Req)
    (r : Request) (rc : RequestContext S Req Resp) (s : S) : Req :=
  if c.readQuery then
    (Enrich (recordAfterCookie c Enrich zero r rc s) tagQuery (queryResolver r)).1
  else recordAfterCookie c Enrich zero r rc s

/-- The call of the body pass, when the pass is required. -/
def bodyCalls (c : typedMiddleware S Req Resp) : List (Call Req Resp) :=
  if c.readBody then [Call.ReadJSONBody] else []

/-- The call of the header pass, when the pass is required. -/
def headerCalls (c : typedMiddleware S Req Resp) : List (Call Req Resp) :=
  if c.readHeaders then [Call.Enrich tagHeader] else []

/-- The call of the cookie pass, when the pass is required. -/
def cookieCalls (c : typedMiddleware S Req Resp) : List (Call Req Resp) :=
  if c.readCookie then [Call.Enrich tagCookie] else []

/-- The call of the query pass, when the pass is required. -/
def queryCalls (c : typedMiddleware S Req Resp) : List (Call Req Resp) :=
  if c.readQuery then [Call.Enrich tagQuery] else []

/-- Whether a call of the adapter is the call of the typed handler. -/
def Call.isHandler : Call Req Resp → Bool
  | Call.handler _ => true
  | _ => false

/-- Whether a call of the adapter is one of `Send`, `SendText`, `SendJSON` (the
adapter never calls `Send` itself). -/
def Call.isSend : Call Req Resp → Bool
  | Call.SendText _ _ => true
  | Call.SendJSON _ _ => true
  | _ => false

/-- The state in which the handler at position `k` of `hs` is called when all
handlers before it were called: the first `k` handlers applied in order. -/
def stateBefore (hs : List (HttpHandler W)) (k : Nat) (r : Request) (rc : requestContext)
    (s : State W) : State W :=
  (hs.take k).foldl (fun st h => (h r rc st).2) s

/-- The `proceed` result of the handler at position `k` of `hs`, called in
`stateBefore hs k`; `true` when there is no such handler. -/
def proceedAt (hs : List (HttpHandler W)) (k : Nat) (r : Request) (rc : requestContext)
    (s : State W) : Bool :=
  match hs.get? k with
  | some h => (h r rc (stateBefore hs k r rc s)).1
  | none => true

/-- The positions of the handlers called, in call order. -/
def invoked (evs : List Event) : List Nat :=
  evs.filterMap fun ev =>
    match ev with
    | Event.handler i _ => some i
    | _ => none

/-- Whether a call is one of the two metrics calls. -/
def Event.isMetrics : Event → Bool
  | Event.ObserveRequestDuration _ _ _ _ => true
  | Event.IncNbRequest _ _ _ => true
  | _ => false

end derived

/-! ## A concrete request type, its collaborators and a concrete chain

The scenario of the spec: a request type with a `json`-tagged `Name string` and a
tagged `Limit int`, used to instantiate the theorems at concrete requests. -/

namespace Example

/-- The request type `struct { Name string; Limit int }`. -/
structure NameLimit where
  Name : String
  Limit : Int
  deriving DecidableEq, Repr

/-- The zero value of `NameLimit`. -/
def zero : NameLimit := { Name := "", Limit := 0 }

/-- The fields of `NameLimit`: `Name` tagged `json:"name"`, `Limit` tagged
`<tag>:"limit"` for the given source tag. -/
def fields (tag : String) : List StructField :=
  [{ Name := "Name", Tag := [("json", "name")] }, { Name := "Limit", Tag := [(tag, "limit")] }]

/-- The fields of a request type without any tag. -/
def untagged : List StructField :=
  [{ Name := "Name", Tag := [] }, { Name := "Limit", Tag := [] }]

/-- The value of a non-empty string of decimal digits. -/
def decimal (v : String) : Option Int :=
  if v.data ≠ [] ∧ v.data.all Char.isDigit = true then
    some (v.data.foldl (fun n ch => 10 * n + ((ch.toNat : Int) - 48)) 0)
  else none

/-- Modelled from the spec: `Enrich` is missing from the sources; this is spec 4.1
at the type `NameLimit` whose `Limit` carries the tag `fieldTag` with key `limit`:
for the field whose tag equals `tag` the resolver is asked for the key; not found
leaves the field, found coerces the value to the integer field, and a value that is
not convertible is a binding error. -/
def Enrich (fieldTag : String) : EnrichFn NameLimit := fun dest tag resolver =>
  if tag = fieldTag then
    match resolver "limit" with
    | (some v, true) =>
      match decimal v with
      | some n => ({ dest with Limit := n }, none)
      | none => (dest, some (Error.foreign "binding error: Limit"))
    | _ => (dest, none)
  else (dest, none)

/-- A stand-in for `json.Unmarshal` at `NameLimit`: it decodes the one payload of
the scenario and rejects every other payload. -/
def Unmarshal : Bytes → NameLimit → NameLimit × Option Error := fun body dest =>
  if body = "\x7b\"name\":\"a\"\x7d" then ({ dest with Name := "a" }, none)
  else (dest, some (Error.foreign "invalid character"))

/-- A stand-in for `json.Marshal` at `*string`. -/
def Marshal : Option String → Bytes × Option Error := fun obj =>
  match obj with
  | some v => ("\"" ++ v ++ "\"", none)
  | none => ("null", none)

/-- The state at the start of a request with the given payload. -/
def start (payload : Bytes) : State Unit :=
  { w := newResponseStatusInterceptor {}, body := { data := payload }, logs := [],
    clock := 0, world := () }

/-- The request context of a request, as an interface value. -/
def context (r : Request) : RequestContext (State Unit) NameLimit String :=
  requestContext.iface { log := {}, r := r, requestId := "" } Unmarshal Marshal

/-- A typed handler that answers with the name of the record. -/
def greet : NameLimit → RequestContext (State Unit) NameLimit String → State Unit →
    (Option String × Option Error) × State Unit :=
  fun req _ s => ((some req.Name, none), s)

/-- A typed handler that fails. -/
def refuse : NameLimit → RequestContext (State Unit) NameLimit String → State Unit →
    (Option String × Option Error) × State Unit :=
  fun _ _ s => ((none, some (Error.foreign "refused")), s)

/-- The request of the scenario: JSON content type and the query `limit=<v>`. -/
def request (v : String) : Request :=
  { Header := [("Content-Type", ["application/json"])], Query := [("limit", [v])] }

/-- A metrics sink that leaves the world alone. -/
def sink : HTTPServerMetrics Unit :=
  { ObserveRequestDuration := fun _ _ _ _ world => world
    IncNbRequest := fun _ _ _ world => world }

/-- A request id generator that always answers `gen`. -/
def generator : Request → Unit → String × Unit := fun _ world => ("gen", world)

/-- A chain handler that passes on. -/
def pass : HttpHandler Unit := fun _ _ s => (true, s)

/-- A chain handler that answers 204 and stops. -/
def stop : HttpHandler Unit := fun _ rc s => (false, rc.Send 204 "" "" s)

end Example

/-! # Theorems -/

/-! ## The handler loop -/

theorem invoked_append (a b : List Event) : invoked (a ++ b) = invoked a ++ invoked b := by
  simp [invoked, List.filterMap_append]

theorem proceedAt_zero {W : Type} (h : HttpHandler W) (rest : List (HttpHandler W))
    (r : Request) (rc : requestContext) (s : State W) :
    proceedAt (h :: rest) 0 r rc s = (h r rc s).1 := by
  simp [proceedAt, stateBefore]

theorem proceedAt_succ {W : Type} (h : HttpHandler W) (rest : List (HttpHandler W)) (k : Nat)
    (r : Request) (rc : requestContext) (s : State W) :
    proceedAt (h :: rest) (k + 1) r rc s = proceedAt rest k r rc (h r rc s).2 := by
  simp [proceedAt, stateBefore]

theorem runHandlers_cons {W : Type} (h : HttpHandler W) (rest : List (HttpHandler W)) (i : Nat)
    (r : Request) (rc : requestContext) (s : State W) :
    (middleware.runHandlers (h :: rest) i r rc s).1 =
      if (h r rc s).1 = true then
        Event.handler i rc.RequestId ::
          (middleware.runHandlers rest (i + 1) r rc (h r rc s).2).1
      else [Event.handler i rc.RequestId] := by
  rw [middleware.runHandlers]
  rcases hh : h r rc s with ⟨_ | _, s1⟩ <;> simp

/-- All handlers return `true`: every handler is called, in order. -/
theorem runHandlers_all {W : Type} (hs : List (HttpHandler W)) (i : Nat) (r : Request)
    (rc : requestContext) (s : State W)
    (hall : ∀ j, j < hs.length → proceedAt hs j r rc s = true) :
    invoked (middleware.runHandlers hs i r rc s).1 = List.range' i hs.length := by
  induction hs generalizing i s with
  | nil => simp [middleware.runHandlers, invoked]
  | cons h rest ih =>
    have h0 : (h r rc s).1 = true := by
      have := hall 0 (by simp)
      rwa [proceedAt_zero] at this
    have hrest : ∀ j, j < rest.length → proceedAt rest j r rc (h r rc s).2 = true := by
      intro j hj
      have := hall (j + 1) (by simpa using hj)
      rwa [proceedAt_succ] at this
    rw [runHandlers_cons, if_pos h0]
    have := ih (i + 1) (h r rc s).2 hrest
    simp only [invoked, List.filterMap_cons, List.length_cons, List.range'_succ] at this ⊢
    rw [this]

/-- The handler at position `k` is the first to return `false`: exactly the
handlers at positions `0..k` are called, in order. -/
theorem runHandlers_stop {W : Type} (hs : List (HttpHandler W)) (i k : Nat) (r : Request)
    (rc : requestContext) (s : State W) (hk : k < hs.length)
    (hbefore : ∀ j, j < k → proceedAt hs j r rc s = true)
    (hstop : proceedAt hs k r rc s = false) :
    invoked (middleware.runHandlers hs i r rc s).1 = List.range' i (k + 1) := by
  induction hs generalizing i k s with
  | nil => simp at hk
  | cons h rest ih =>
    cases k with
    | zero =>
      rw [proceedAt_zero] at hstop
      rw [runHandlers_cons]
      simp [hstop, invoked]
    | succ k =>
      have h0 : (h r rc s).1 = true := by
        have := hbefore 0 (by omega)
        rwa [proceedAt_zero] at this
      have hrest : ∀ j, j < k → proceedAt rest j r rc (h r rc s).2 = true := by
        intro j hj
        have := hbefore (j + 1) (by omega)
        rwa [proceedAt_succ] at this
      rw [proceedAt_succ] at hstop
      rw [runHandlers_cons, if_pos h0]
      have := ih (i + 1) k (h r rc s).2 (by simpa using hk) hrest hstop
      simp only [invoked, List.filterMap_cons] at this ⊢
      rw [this, List.range'_succ i (k + 1)]

/-- Every call of the loop is a handler call, at a position of the list, with
the request id of the request context. -/
theorem runHandlers_events {W : Type} (hs : List (HttpHandler W)) (i : Nat) (r : Request)
    (rc : requestContext) (s : State W) :
    ∀ ev ∈ (middleware.runHandlers hs i r rc s).1,
      ∃ j, ev = Event.handler j rc.RequestId ∧ i ≤ j ∧ j < i + hs.length := by
  induction hs generalizing i s with
  | nil => simp [middleware.runHandlers]
  | cons h rest ih =>
    intro ev hev
    rw [runHandlers_cons] at hev
    split at hev
    · rcases List.mem_cons.1 hev with rfl | hmem
      · exact ⟨i, rfl, le_refl _, by simp⟩
      · obtain ⟨j, hj, h1, h2⟩ := ih (i + 1) _ ev hmem
        exact ⟨j, hj, by omega, by simp at h2 ⊢; omega⟩
    · rcases List.mem_singleton.1 hev with rfl
      exact ⟨i, rfl, le_refl _, by simp⟩

/-- A handler that always returns `false` ends the loop: no handler after it is
called. -/
theorem runHandlers_terminal {W : Type} (pre post : List (HttpHandler W)) (t : HttpHandler W)
    (ht : ∀ r rc s, (t r rc s).1 = false) (i : Nat) (r : Request) (rc : requestContext)
    (s : State W) :
    ∀ ev ∈ (middleware.runHandlers (pre ++ [t] ++ post) i r rc s).1,
      ∃ j, ev = Event.handler j rc.RequestId ∧ j ≤ i + pre.length := by
  induction pre generalizing i s with
  | nil =>
    intro ev hev
    simp only [List.nil_append, List.singleton_append] at hev
    rw [runHandlers_cons] at hev
    simp only [ht, Bool.false_eq_true, if_false, List.mem_singleton] at hev
    exact ⟨i, hev, by simp⟩
  | cons h rest ih =>
    intro ev hev
    simp only [List.cons_append] at hev
    rw [runHandlers_cons] at hev
    split at hev
    · rcases List.mem_cons.1 hev with rfl | hmem
      · exact ⟨i, rfl, by simp⟩
      · have hmem2 : ev ∈ (middleware.runHandlers (rest ++ [t] ++ post) (i + 1) r rc (h r rc s).2).1 := by
          simpa using hmem
        obtain ⟨j, hj, h1⟩ := ih (i + 1) _ ev hmem2
        exact ⟨j, hj, by simp; omega⟩
    · rcases List.mem_singleton.1 hev with rfl
      exact ⟨i, rfl, by simp⟩

/-! ## `ServeHTTP` as a whole -/

theorem resolveRequestId_eq {W : Type} (mw : middleware W) (r : Request) (world : W) :
    (mw.resolveRequestId r world).1.1 =
      (if r.Header.Get HeaderRequestId = "" then
        match mw.requestIdGenerator with
        | some g => (g r world).1
        | none => ""
       else r.Header.Get HeaderRequestId) ∧
    (mw.resolveRequestId r world).1.2 =
      (if r.Header.Get HeaderRequestId = "" ∧ mw.requestIdGenerator.isSome = true then
        [Event.generator] else []) := by
  unfold middleware.resolveRequestId
  by_cases h : r.Header.Get HeaderRequestId = ""
  · cases hg : mw.requestIdGenerator <;> simp [h]
  · simp [h]

theorem prepare_events {W : Type} (mw : middleware W) (w : ResponseWriter) (r : Request)
    (body : Body) (logs : List LogEntry) (clock : Int) (world : W) :
    (mw.prepare w r body logs clock world).events =
      (mw.resolveRequestId r world).1.2 ++
        (if (mw.resolveRequestId r world).1.1 ≠ "" then
          [Event.HeaderSet HeaderRequestId (mw.resolveRequestId r world).1.1] else []) ∧
    (mw.prepare w r body logs clock world).requestId = (mw.resolveRequestId r world).1.1 ∧
    (mw.prepare w r body logs clock world).rc.RequestId = (mw.resolveRequestId r world).1.1 := by
  unfold middleware.prepare
  rcases h : mw.resolveRequestId r world with ⟨⟨id, evs⟩, w1⟩
  simp [requestContext.RequestId]

theorem deferred_events {W : Type} (mw : middleware W) (startTm statusCode : Int)
    (s : State W) :
    (mw.deferred startTm statusCode s).1.1 =
      (if 0 < mw.requestTimeout then [Event.cancel] else []) ++
        (if mw.withMetrics = true ∧ mw.metrics.isSome = true then
          [Event.ObserveRequestDuration mw.metricsMethod statusCode 0 (s.clock - startTm),
           Event.IncNbRequest mw.metricsMethod statusCode 0]
         else []) := by
  unfold middleware.deferred
  cases mw.withMetrics <;> cases mw.metrics <;> simp

theorem ServeHTTP_events {W : Type} (mw : middleware W) (w : ResponseWriter) (r : Request)
    (body : Body) (logs : List LogEntry) (clock : Int) (world : W) :
    (mw.ServeHTTP w r body logs clock world).events =
      (mw.prepare w r body logs clock world).events ++
      (middleware.runHandlers mw.handlers 0 (mw.prepare w r body logs clock world).r
        (mw.prepare w r body logs clock world).rc
        (mw.prepare w r body logs clock world).state).1 ++
      (mw.deferred (if mw.withMetrics then clock else 0)
        (middleware.runHandlers mw.handlers 0 (mw.prepare w r body logs clock world).r
          (mw.prepare w r body logs clock world).rc
          (mw.prepare w r body logs clock world).state).2.w.statusCode
        (middleware.runHandlers mw.handlers 0 (mw.prepare w r body logs clock world).r
          (mw.prepare w r body logs clock world).rc
          (mw.prepare w r body logs clock world).state).2).1.1 ∧
    (mw.ServeHTTP w r body logs clock world).requestId =
      (mw.prepare w r body logs clock world).requestId := by
  exact ⟨rfl, rfl⟩

theorem invoked_prepare {W : Type} (mw : middleware W) (w : ResponseWriter) (r : Request)
    (body : Body) (logs : List LogEntry) (clock : Int) (world : W) :
    invoked (mw.prepare w r body logs clock world).events = [] := by
  rw [(prepare_events mw w r body logs clock world).1, invoked_append]
  have h1 : invoked (mw.resolveRequestId r world).1.2 = [] := by
    rw [(resolveRequestId_eq mw r world).2]
    split <;> simp [invoked]
  rw [h1]
  split <;> simp [invoked]

theorem invoked_deferred {W : Type} (mw : middleware W) (startTm statusCode : Int)
    (s : State W) : invoked (mw.deferred startTm statusCode s).1.1 = [] := by
  rw [deferred_events, invoked_append]
  split <;> split <;> simp [invoked]

theorem invoked_ServeHTTP {W : Type} (mw : middleware W) (w : ResponseWriter) (r : Request)
    (body : Body) (logs : List LogEntry) (clock : Int) (world : W) :
    invoked (mw.ServeHTTP w r body logs clock world).events =
      invoked (middleware.runHandlers mw.handlers 0 (mw.prepare w r body logs clock world).r
        (mw.prepare w r body logs clock world).rc
        (mw.prepare w r body logs clock world).state).1 := by
  rw [(ServeHTTP_events mw w r body logs clock world).1, invoked_append, invoked_append,
    invoked_prepare, invoked_deferred]
  simp

theorem foldl_Use_handlers {W : Type} (hs : List (HttpHandler W)) (mw : middleware W) :
    (hs.foldl middleware.Use mw).handlers = mw.handlers ++ hs := by
  induction hs generalizing mw with
  | nil => simp
  | cons h rest ih => simp [ih, middleware.Use]

/-! ## The tag scan of `NewTypedMiddleware` -/

theorem step_flags (fl : tagFlags) (tf : StructField) :
    (NewTypedMiddleware.step fl tf).query = (fl.query || (StructTag.Lookup tf.Tag tagQuery).2) ∧
    (NewTypedMiddleware.step fl tf).header = (fl.header || (StructTag.Lookup tf.Tag tagHeader).2) ∧
    (NewTypedMiddleware.step fl tf).cookie = (fl.cookie || (StructTag.Lookup tf.Tag tagCookie).2) ∧
    (NewTypedMiddleware.step fl tf).context =
      (fl.context || (StructTag.Lookup tf.Tag tagContext).2) ∧
    (NewTypedMiddleware.step fl tf).body = (fl.body || (StructTag.Lookup tf.Tag tagBody).2) := by
  unfold NewTypedMiddleware.step
  cases (StructTag.Lookup tf.Tag tagQuery).2 <;> cases (StructTag.Lookup tf.Tag tagHeader).2 <;>
    cases (StructTag.Lookup tf.Tag tagCookie).2 <;>
    cases (StructTag.Lookup tf.Tag tagContext).2 <;>
    cases (StructTag.Lookup tf.Tag tagBody).2 <;> simp

theorem foldl_flags (fields : List StructField) (fl : tagFlags) :
    ((fields.foldl NewTypedMiddleware.step fl).query = true ↔
      fl.query = true ∨ ∃ f ∈ fields, (StructTag.Lookup f.Tag tagQuery).2 = true) ∧
    ((fields.foldl NewTypedMiddleware.step fl).header = true ↔
      fl.header = true ∨ ∃ f ∈ fields, (StructTag.Lookup f.Tag tagHeader).2 = true) ∧
    ((fields.foldl NewTypedMiddleware.step fl).cookie = true ↔
      fl.cookie = true ∨ ∃ f ∈ fields, (StructTag.Lookup f.Tag tagCookie).2 = true) ∧
    ((fields.foldl NewTypedMiddleware.step fl).body = true ↔
      fl.body = true ∨ ∃ f ∈ fields, (StructTag.Lookup f.Tag tagBody).2 = true) := by
  induction fields generalizing fl with
  | nil => simp
  | cons tf rest ih =>
    obtain ⟨h1, h2, h3, _, h5⟩ := step_flags fl tf
    obtain ⟨i1, i2, i3, i5⟩ := ih (NewTypedMiddleware.step fl tf)
    simp only [List.foldl_cons, List.mem_cons, exists_eq_or_imp]
    rw [i1, i2, i3, i5, h1, h2, h3, h5]
    simp only [Bool.or_eq_true, or_assoc]
    simp

theorem NewTypedMiddleware_flags {S Req Resp : Type} (fields : List StructField)
    (h : Req → RequestContext S Req Resp → S → (Option Resp × Option Error) × S) :
    ((NewTypedMiddleware fields h).readBody = true ↔
      ∃ f ∈ fields, (StructTag.Lookup f.Tag tagBody).2 = true) ∧
    ((NewTypedMiddleware fields h).readHeaders = true ↔
      ∃ f ∈ fields, (StructTag.Lookup f.Tag tagHeader).2 = true) ∧
    ((NewTypedMiddleware fields h).readCookie = true ↔
      ∃ f ∈ fields, (StructTag.Lookup f.Tag tagCookie).2 = true) ∧
    ((NewTypedMiddleware fields h).readQuery = true ↔
      ∃ f ∈ fields, (StructTag.Lookup f.Tag tagQuery).2 = true) := by
  obtain ⟨h1, h2, h3, h5⟩ := foldl_flags fields {}
  simp only [NewTypedMiddleware, NewTypedMiddleware.scan]
  refine ⟨?_, ?_, ?_, ?_⟩
  · rw [h5]; simp
  · rw [h2]; simp
  · rw [h3]; simp
  · rw [h1]; simp

/-! ## The chain handler of the typed adapter, pass by pass -/

theorem bodyPass_eq {S Req Resp : Type} (c : typedMiddleware S Req Resp)
    (rc : RequestContext S Req Resp) (p : Progress S Req Resp) :
    c.bodyPass rc p =
      if c.readBody = true then
        if (rc.ReadJSONBody p.req p.st).1.2 ≠ none then
          Except.error
            ((false, p.calls ++ [Call.ReadJSONBody, Call.SendText 500 "Error parsing body"]),
             rc.SendText 500 "Error parsing body" (rc.ReadJSONBody p.req p.st).2)
        else
          Except.ok { req := (rc.ReadJSONBody p.req p.st).1.1,
                      st := (rc.ReadJSONBody p.req p.st).2,
                      calls := p.calls ++ [Call.ReadJSONBody] }
      else Except.ok p := by
  unfold typedMiddleware.bodyPass
  rcases h : rc.ReadJSONBody p.req p.st with ⟨⟨q, _ | e⟩, s1⟩ <;> simp

theorem enrichPass_eq {S Req Resp : Type} (flag : Bool) (tag : String) (resolver : Resolver)
    (Enrich : EnrichFn Req) (p : Progress S Req Resp) :
    @typedMiddleware.enrichPass S Req Resp flag tag resolver Enrich p =
      if flag = true then
        if (Enrich p.req tag resolver).2 ≠ none then
          Except.error ((false, p.calls ++ [Call.Enrich tag]), p.st)
        else
          Except.ok { req := (Enrich p.req tag resolver).1, st := p.st,
                      calls := p.calls ++ [Call.Enrich tag] }
      else Except.ok p := by
  unfold typedMiddleware.enrichPass
  rcases h : Enrich p.req tag resolver with ⟨q, _ | e⟩ <;> simp

theorem invoke_eq {S Req Resp : Type} (c : typedMiddleware S Req Resp)
    (rc : RequestContext S Req Resp) (p : Progress S Req Resp) :
    c.invoke rc p =
      if (c.handler p.req rc p.st).1.2 ≠ none then
        ((false, p.calls ++ [Call.handler p.req]), (c.handler p.req rc p.st).2)
      else
        ((false, p.calls ++
            [Call.handler p.req, Call.SendJSON 200 (c.handler p.req rc p.st).1.1]),
         rc.SendJSON 200 (c.handler p.req rc p.st).1.1 (c.handler p.req rc p.st).2) := by
  unfold typedMiddleware.invoke
  rcases h : c.handler p.req rc p.st with ⟨⟨q, _ | e⟩, s1⟩ <;> simp

theorem passes_eq {S Req Resp : Type} (c : typedMiddleware S Req Resp)
    (Enrich : EnrichFn Req) (zero : Req) (r : Request) (rc : RequestContext S Req Resp)
    (s : S) :
    c.passes Enrich zero r rc s =
      if c.readBody = true ∧ (rc.ReadJSONBody zero s).1.2 ≠ none then
        Except.error
          ((false, [Call.ReadJSONBody, Call.SendText 500 "Error parsing body"]),
           rc.SendText 500 "Error parsing body" (rc.ReadJSONBody zero s).2)
      else if c.readHeaders = true ∧
          (Enrich (recordAfterBody c zero rc s) tagHeader (headerResolver r)).2 ≠ none then
        Except.error ((false, bodyCalls c ++ [Call.Enrich tagHeader]), stateAfterBody c zero rc s)
      else if c.readCookie = true ∧
          (Enrich (recordAfterHeaders c Enrich zero r rc s) tagCookie (cookieResolver r)).2
            ≠ none then
        Except.error ((false, bodyCalls c ++ headerCalls c ++ [Call.Enrich tagCookie]),
          stateAfterBody c zero rc s)
      else if c.readQuery = true ∧
          (Enrich (recordAfterCookie c Enrich zero r rc s) tagQuery (queryResolver r)).2
            ≠ none then
        Except.error
          ((false, bodyCalls c ++ headerCalls c ++ cookieCalls c ++ [Call.Enrich tagQuery]),
           stateAfterBody c zero rc s)
      else
        Except.ok { req := recordAfterQuery c Enrich zero r rc s,
                    st := stateAfterBody c zero rc s,
                    calls := bodyCalls c ++ headerCalls c ++ cookieCalls c ++ queryCalls c } := by
  unfold typedMiddleware.passes
  simp only [bodyPass_eq, enrichPass_eq, recordAfterQuery, recordAfterCookie, recordAfterHeaders,
    recordAfterBody, stateAfterBody, bodyCalls, headerCalls, cookieCalls, queryCalls]
  cases c.readBody <;> cases c.readHeaders <;> cases c.readCookie <;> cases c.readQuery <;>
    simp <;> split_ifs <;> simp_all

/-- The chain handler as one case distinction: the first failing pass decides;
when none fails the typed handler is called. -/
theorem Handler_eq {S Req Resp : Type} (c : typedMiddleware S Req Resp)
    (Enrich : EnrichFn Req) (zero : Req) (r : Request) (rc : RequestContext S Req Resp)
    (s : S) :
    c.Handler Enrich zero r rc s =
      if c.readBody = true ∧ (rc.ReadJSONBody zero s).1.2 ≠ none then
        ((false, [Call.ReadJSONBody, Call.SendText 500 "Error parsing body"]),
         rc.SendText 500 "Error parsing body" (rc.ReadJSONBody zero s).2)
      else if c.readHeaders = true ∧
          (Enrich (recordAfterBody c zero rc s) tagHeader (headerResolver r)).2 ≠ none then
        ((false, bodyCalls c ++ [Call.Enrich tagHeader]), stateAfterBody c zero rc s)
      else if c.readCookie = true ∧
          (Enrich (recordAfterHeaders c Enrich zero r rc s) tagCookie (cookieResolver r)).2
            ≠ none then
        ((false, bodyCalls c ++ headerCalls c ++ [Call.Enrich tagCookie]),
         stateAfterBody c zero rc s)
      else if c.readQuery = true ∧
          (Enrich (recordAfterCookie c Enrich zero r rc s) tagQuery (queryResolver r)).2
            ≠ none then
        ((false, bodyCalls c ++ headerCalls c ++ cookieCalls c ++ [Call.Enrich tagQuery]),
         stateAfterBody c zero rc s)
      else if (c.handler (recordAfterQuery c Enrich zero r rc s) rc
          (stateAfterBody c zero rc s)).1.2 ≠ none then
        ((false, bodyCalls c ++ headerCalls c ++ cookieCalls c ++ queryCalls c ++
            [Call.handler (recordAfterQuery c Enrich zero r rc s)]),
         (c.handler (recordAfterQuery c Enrich zero r rc s) rc (stateAfterBody c zero rc s)).2)
      else
        ((false, bodyCalls c ++ headerCalls c ++ cookieCalls c ++ queryCalls c ++
            [Call.handler (recordAfterQuery c Enrich zero r rc s),
             Call.SendJSON 200
               (c.handler (recordAfterQuery c Enrich zero r rc s) rc
                 (stateAfterBody c zero rc s)).1.1]),
         rc.SendJSON 200
           (c.handler (recordAfterQuery c Enrich zero r rc s) rc
             (stateAfterBody c zero rc s)).1.1
           (c.handler (recordAfterQuery c Enrich zero r rc s) rc
             (stateAfterBody c zero rc s)).2) := by
  unfold typedMiddleware.Handler
  rw [passes_eq]
  split_ifs <;> simp_all [invoke_eq]

theorem Handler_proceed {S Req Resp : Type} (c : typedMiddleware S Req Resp)
    (Enrich : EnrichFn Req) (zero : Req) (r : Request) (rc : RequestContext S Req Resp)
    (s : S) : (c.Handler Enrich zero r rc s).1.1 = false := by
  rw [Handler_eq]
  split_ifs <;> rfl

theorem mem_bodyCalls {S Req Resp : Type} (c : typedMiddleware S Req Resp)
    (call : Call Req Resp) :
    call ∈ bodyCalls c ↔ call = Call.ReadJSONBody ∧ c.readBody = true := by
  unfold bodyCalls; cases c.readBody <;> simp

theorem mem_headerCalls {S Req Resp : Type} (c : typedMiddleware S Req Resp)
    (call : Call Req Resp) :
    call ∈ headerCalls c ↔ call = Call.Enrich tagHeader ∧ c.readHeaders = true := by
  unfold headerCalls; cases c.readHeaders <;> simp

theorem mem_cookieCalls {S Req Resp : Type} (c : typedMiddleware S Req Resp)
    (call : Call Req Resp) :
    call ∈ cookieCalls c ↔ call = Call.Enrich tagCookie ∧ c.readCookie = true := by
  unfold cookieCalls; cases c.readCookie <;> simp

theorem mem_queryCalls {S Req Resp : Type} (c : typedMiddleware S Req Resp)
    (call : Call Req Resp) :
    call ∈ queryCalls c ↔ call = Call.Enrich tagQuery ∧ c.readQuery = true := by
  unfold queryCalls; cases c.readQuery <;> simp

/-- Every call of the chain handler is one the source writes, and a pass is
called only under its flag. -/
theorem Handler_calls {S Req Resp : Type} (c : typedMiddleware S Req Resp)
    (Enrich : EnrichFn Req) (zero : Req) (r : Request) (rc : RequestContext S Req Resp)
    (s : S) :
    ∀ call ∈ (c.Handler Enrich zero r rc s).1.2,
      (call = Call.ReadJSONBody ∧ c.readBody = true) ∨
      (call = Call.Enrich tagHeader ∧ c.readHeaders = true) ∨
      (call = Call.Enrich tagCookie ∧ c.readCookie = true) ∨
      (call = Call.Enrich tagQuery ∧ c.readQuery = true) ∨
      (call = Call.SendText 500 "Error parsing body" ∧ c.readBody = true) ∨
      (∃ q, call = Call.handler q) ∨ (∃ o, call = Call.SendJSON 200 o) := by
  intro call hcall
  rw [Handler_eq] at hcall
  split_ifs at hcall with h1 h2 h3 h4 h5 <;>
    simp only [List.mem_append, mem_bodyCalls, mem_headerCalls, mem_cookieCalls,
      mem_queryCalls, List.mem_cons, List.mem_singleton, List.not_mem_nil, or_false] at hcall
  · rcases hcall with rfl | rfl
    · exact Or.inl ⟨rfl, h1.1⟩
    · exact Or.inr (Or.inr (Or.inr (Or.inr (Or.inl ⟨rfl, h1.1⟩))))
  · rcases hcall with h | rfl
    · exact Or.inl h
    · exact Or.inr (Or.inl ⟨rfl, h2.1⟩)
  · rcases hcall with (h | h) | rfl
    · exact Or.inl h
    · exact Or.inr (Or.inl h)
    · exact Or.inr (Or.inr (Or.inl ⟨rfl, h3.1⟩))
  · rcases hcall with ((h | h) | h) | rfl
    · exact Or.inl h
    · exact Or.inr (Or.inl h)
    · exact Or.inr (Or.inr (Or.inl h))
    · exact Or.inr (Or.inr (Or.inr (Or.inl ⟨rfl, h4.1⟩)))
  · rcases hcall with (((h | h) | h) | h) | rfl
    · exact Or.inl h
    · exact Or.inr (Or.inl h)
    · exact Or.inr (Or.inr (Or.inl h))
    · exact Or.inr (Or.inr (Or.inr (Or.inl h)))
    · exact Or.inr (Or.inr (Or.inr (Or.inr (Or.inr (Or.inl ⟨_, rfl⟩)))))
  · rcases hcall with (((h | h) | h) | h) | rfl | rfl
    · exact Or.inl h
    · exact Or.inr (Or.inl h)
    · exact Or.inr (Or.inr (Or.inl h))
    · exact Or.inr (Or.inr (Or.inr (Or.inl h)))
    · exact Or.inr (Or.inr (Or.inr (Or.inr (Or.inr (Or.inl ⟨_, rfl⟩)))))
    · exact Or.inr (Or.inr (Or.inr (Or.inr (Or.inr (Or.inr ⟨_, rfl⟩)))))

/-! ## Metrics -/

theorem foldl_Use_config {W : Type} (hs : List (HttpHandler W)) (mw : middleware W) :
    (hs.foldl middleware.Use mw).withMetrics = mw.withMetrics ∧
    (hs.foldl middleware.Use mw).metrics.isSome = mw.metrics.isSome ∧
    (hs.foldl middleware.Use mw).metricsMethod = mw.metricsMethod := by
  induction hs generalizing mw with
  | nil => simp
  | cons h rest ih =>
    obtain ⟨h1, h2, h3⟩ := ih (mw.Use h)
    simp only [List.foldl_cons, h1, h2, h3]
    simp [middleware.Use]

theorem ServeHTTP_metrics_events {W : Type} (mw : middleware W) (w : ResponseWriter)
    (r : Request) (body : Body) (logs : List LogEntry) (clock : Int) (world : W) :
    (mw.ServeHTTP w r body logs clock world).events.filter Event.isMetrics =
      (if mw.withMetrics = true ∧ mw.metrics.isSome = true then
        [Event.ObserveRequestDuration mw.metricsMethod
           (mw.ServeHTTP w r body logs clock world).final.w.statusCode 0
           ((mw.ServeHTTP w r body logs clock world).final.clock - clock),
         Event.IncNbRequest mw.metricsMethod
           (mw.ServeHTTP w r body logs clock world).final.w.statusCode 0]
       else []) := by
  have hloop : ∀ (hs : List (HttpHandler W)) i r rc s,
      (middleware.runHandlers hs i r rc s).1.filter Event.isMetrics = [] := by
    intro hs i r rc s
    rw [List.filter_eq_nil_iff]
    intro ev hev
    obtain ⟨j, rfl, _⟩ := runHandlers_events hs i r rc s ev hev
    simp [Event.isMetrics]
  have hprep : (mw.prepare w r body logs clock world).events.filter Event.isMetrics = [] := by
    rw [(prepare_events mw w r body logs clock world).1, (resolveRequestId_eq mw r world).2]
    split_ifs <;> simp [Event.isMetrics]
  have hfinal : (mw.ServeHTTP w r body logs clock world).final =
      (mw.deferred (if mw.withMetrics then clock else 0)
        (middleware.runHandlers mw.handlers 0 (mw.prepare w r body logs clock world).r
          (mw.prepare w r body logs clock world).rc
          (mw.prepare w r body logs clock world).state).2.w.statusCode
        (middleware.runHandlers mw.handlers 0 (mw.prepare w r body logs clock world).r
          (mw.prepare w r body logs clock world).rc
          (mw.prepare w r body logs clock world).state).2).2 := rfl
  rw [hfinal, (ServeHTTP_events mw w r body logs clock world).1, List.filter_append,
    List.filter_append, hprep, hloop, deferred_events]
  unfold middleware.deferred
  cases hm : mw.withMetrics <;> cases hx : mw.metrics <;>
    by_cases ht : 0 < mw.requestTimeout <;> simp [ht, Event.isMetrics]

/-- C1, the code as it is: `WithMetrics` stores the sink and the method name but
leaves `withMetrics` at the `false` of `NewMiddleware`, so for every chain built
from `NewMiddleware` with `WithMetrics` (and any timeout, generator, body limit and
handlers) and for every request, `ServeHTTP` makes neither metrics call. -/
theorem ServeHTTP_after_WithMetrics_makes_no_metrics_call {W : Type} (log : Logger)
    (m : HTTPServerMetrics W) (method : String) (timeout maxBytes : Int)
    (g : Option (Request → W → String × W)) (hs : List (HttpHandler W))
    (w : ResponseWriter) (r : Request) (body : Body) (logs : List LogEntry) (clock : Int)
    (world : W) :
    ((NewMiddleware log).WithMetrics m method).withMetrics = false ∧
    ((hs.foldl middleware.Use
        (((((NewMiddleware log).WithMetrics m method).WithTimeoutContext
          timeout).WithRequestIdGenerator g).WithMaxBytesReader maxBytes)).ServeHTTP
        w r body logs clock world).events.filter Event.isMetrics = [] := by
  refine ⟨rfl, ?_⟩
  rw [ServeHTTP_metrics_events, (foldl_Use_config hs _).1]
  simp [NewMiddleware, middleware.WithMetrics, middleware.WithTimeoutContext,
    middleware.WithRequestIdGenerator, middleware.WithMaxBytesReader]

/-! ## Handler order -/

/-- C2: for handlers `hs` registered with `Use` in that order and every request,
`ServeHTTP` calls them in registration order, each at most once: when the handler
at position `k` is the first to return `false`, exactly the handlers at positions
`0..k` are called; when every handler returns `true`, all of them are called
once. -/
theorem ServeHTTP_invokes_handlers_in_order {W : Type} (mw : middleware W)
    (hs : List (HttpHandler W)) (w : ResponseWriter) (r : Request) (body : Body)
    (logs : List LogEntry) (clock : Int) (world : W) :
    (hs.foldl middleware.Use { mw with handlers := [] }).handlers = hs ∧
    (∀ k, k < hs.length →
      (∀ j, j < k →
        proceedAt hs j
          ((hs.foldl middleware.Use { mw with handlers := [] }).prepare
            w r body logs clock world).r
          ((hs.foldl middleware.Use { mw with handlers := [] }).prepare
            w r body logs clock world).rc
          ((hs.foldl middleware.Use { mw with handlers := [] }).prepare
            w r body logs clock world).state = true) →
      proceedAt hs k
          ((hs.foldl middleware.Use { mw with handlers := [] }).prepare
            w r body logs clock world).r
          ((hs.foldl middleware.Use { mw with handlers := [] }).prepare
            w r body logs clock world).rc
          ((hs.foldl middleware.Use { mw with handlers := [] }).prepare
            w r body logs clock world).state = false →
      invoked ((hs.foldl middleware.Use { mw with handlers := [] }).ServeHTTP
        w r body logs clock world).events = List.range (k + 1)) ∧
    ((∀ j, j < hs.length →
        proceedAt hs j
          ((hs.foldl middleware.Use { mw with handlers := [] }).prepare
            w r body logs clock world).r
          ((hs.foldl middleware.Use { mw with handlers := [] }).prepare
            w r body logs clock world).rc
          ((hs.foldl middleware.Use { mw with handlers := [] }).prepare
            w r body logs clock world).state = true) →
      invoked ((hs.foldl middleware.Use { mw with handlers := [] }).ServeHTTP
        w r body logs clock world).events = List.range hs.length) := by
  have hh : (hs.foldl middleware.Use { mw with handlers := [] }).handlers = hs := by
    rw [foldl_Use_handlers]; simp
  refine ⟨hh, ?_, ?_⟩
  · intro k hk hbefore hstop
    rw [invoked_ServeHTTP, hh, runHandlers_stop hs 0 k _ _ _ hk hbefore hstop,
      List.range_eq_range']
  · intro hall
    rw [invoked_ServeHTTP, hh, runHandlers_all hs 0 _ _ _ hall, List.range_eq_range']

theorem deferred_mem {W : Type} (mw : middleware W) (startTm statusCode : Int)
    (s : State W) (ev : Event) (hmem : ev ∈ (mw.deferred startTm statusCode s).1.1) :
    ev = Event.cancel ∨ ev.isMetrics = true := by
  rw [deferred_events] at hmem
  rcases List.mem_append.1 hmem with h | h
  · split_ifs at h
    · exact Or.inl (List.mem_singleton.1 h)
    · simp at h
  · split_ifs at h
    · rcases List.mem_cons.1 h with rfl | h
      · exact Or.inr rfl
      · rcases List.mem_singleton.1 h with rfl
        exact Or.inr rfl
    · simp at h

theorem mem_events_iff (A B : Prop) [Decidable A] [Decidable B] (x y ev : Event)
    (L D : List Event) :
    ev ∈ ((if A then [x] else []) ++ (if B then [y] else [])) ++ L ++ D ↔
      (A ∧ ev = x) ∨ (B ∧ ev = y) ∨ ev ∈ L ∨ ev ∈ D := by
  by_cases hA : A <;> by_cases hB : B <;> simp [hA, hB, or_assoc]

/-! ## Request id -/

/-- C5: `ServeHTTP` takes the request id from the inbound `X-Request-ID` header
when it is non-empty (the generator is then not called), else from the configured
generator, else it is empty; it sets the response header `X-Request-ID` to that id
exactly when the id is non-empty; and every handler is called with a request
context whose `RequestId()` is that id. -/
theorem ServeHTTP_request_id {W : Type} (mw : middleware W) (w : ResponseWriter)
    (r : Request) (body : Body) (logs : List LogEntry) (clock : Int) (world : W) :
    (mw.ServeHTTP w r body logs clock world).requestId =
      (if r.Header.Get HeaderRequestId ≠ "" then r.Header.Get HeaderRequestId
       else
         match mw.requestIdGenerator with
         | some g => (g r world).1
         | none => "") ∧
    (Event.generator ∈ (mw.ServeHTTP w r body logs clock world).events ↔
      r.Header.Get HeaderRequestId = "" ∧ mw.requestIdGenerator.isSome = true) ∧
    (Event.HeaderSet HeaderRequestId (mw.ServeHTTP w r body logs clock world).requestId ∈
        (mw.ServeHTTP w r body logs clock world).events ↔
      (mw.ServeHTTP w r body logs clock world).requestId ≠ "") ∧
    (∀ key value, Event.HeaderSet key value ∈ (mw.ServeHTTP w r body logs clock world).events →
      key = HeaderRequestId ∧ value = (mw.ServeHTTP w r body logs clock world).requestId) ∧
    ((mw.prepare w r body logs clock world).state.w.w.calls =
      if (mw.ServeHTTP w r body logs clock world).requestId ≠ "" then
        w.calls ++ [SinkCall.HeaderSet HeaderRequestId
          (mw.ServeHTTP w r body logs clock world).requestId]
      else w.calls) ∧
    (∀ i id, Event.handler i id ∈ (mw.ServeHTTP w r body logs clock world).events →
      id = (mw.ServeHTTP w r body logs clock world).requestId) := by
  obtain ⟨hev, hid⟩ := ServeHTTP_events mw w r body logs clock world
  obtain ⟨hpe, hpid, hprc⟩ := prepare_events mw w r body logs clock world
  obtain ⟨hr1, hr2⟩ := resolveRequestId_eq mw r world
  have hloop := runHandlers_events mw.handlers 0 (mw.prepare w r body logs clock world).r
    (mw.prepare w r body logs clock world).rc (mw.prepare w r body logs clock world).state
  have hnotloop : ∀ ev, (∀ j id, ev ≠ Event.handler j id) →
      ev ∉ (middleware.runHandlers mw.handlers 0 (mw.prepare w r body logs clock world).r
        (mw.prepare w r body logs clock world).rc
        (mw.prepare w r body logs clock world).state).1 := by
    intro ev hne hmem
    obtain ⟨j, hj, _⟩ := hloop ev hmem
    exact hne j _ hj
  have hnotdef : ∀ ev, ev ≠ Event.cancel → ev.isMetrics = false →
      ev ∉ (mw.deferred (if mw.withMetrics then clock else 0)
        (middleware.runHandlers mw.handlers 0 (mw.prepare w r body logs clock world).r
          (mw.prepare w r body logs clock world).rc
          (mw.prepare w r body logs clock world).state).2.w.statusCode
        (middleware.runHandlers mw.handlers 0 (mw.prepare w r body logs clock world).r
          (mw.prepare w r body logs clock world).rc
          (mw.prepare w r body logs clock world).state).2).1.1 := by
    intro ev hc hm hmem
    rcases deferred_mem mw _ _ _ ev hmem with h | h
    · exact hc h
    · rw [hm] at h; exact Bool.false_ne_true h
  have hidr : (mw.ServeHTTP w r body logs clock world).requestId =
      (mw.resolveRequestId r world).1.1 := by rw [hid, hpid]
  refine ⟨?_, ?_, ?_, ?_, ?_, ?_⟩
  · rw [hidr, hr1]
    by_cases h : r.Header.Get HeaderRequestId = "" <;> simp [h]
  · rw [hev, hpe, hr2, mem_events_iff]
    have h1 := hnotloop Event.generator (fun _ _ h => Event.noConfusion h)
    have h2 := hnotdef Event.generator (fun h => Event.noConfusion h) rfl
    constructor
    · rintro (⟨h, -⟩ | ⟨-, h⟩ | h | h)
      · exact h
      · exact Event.noConfusion h
      · exact absurd h h1
      · exact absurd h h2
    · intro h
      exact Or.inl ⟨h, rfl⟩
  · rw [hev, hpe, hr2, mem_events_iff, hidr]
    have h1 := hnotloop (Event.HeaderSet HeaderRequestId (mw.resolveRequestId r world).1.1)
      (fun _ _ h => Event.noConfusion h)
    have h2 := hnotdef (Event.HeaderSet HeaderRequestId (mw.resolveRequestId r world).1.1)
      (fun h => Event.noConfusion h) rfl
    constructor
    · rintro (⟨-, h⟩ | ⟨h, -⟩ | h | h)
      · exact Event.noConfusion h
      · exact h
      · exact absurd h h1
      · exact absurd h h2
    · intro h
      exact Or.inr (Or.inl ⟨h, rfl⟩)
  · intro key value hmem
    rw [hev, hpe, hr2, mem_events_iff] at hmem
    have h1 := hnotloop (Event.HeaderSet key value) (fun _ _ h => Event.noConfusion h)
    have h2 := hnotdef (Event.HeaderSet key value) (fun h => Event.noConfusion h) rfl
    rw [hidr]
    rcases hmem with ⟨-, h⟩ | ⟨-, h⟩ | h | h
    · exact Event.noConfusion h
    · injection h with hk hv
      exact ⟨hk, hv⟩
    · exact absurd h h1
    · exact absurd h h2
  · rw [hidr]
    unfold middleware.prepare
    rcases hres : mw.resolveRequestId r world with ⟨⟨id, evs⟩, w1⟩
    by_cases hne : id = "" <;> simp [hne, newResponseStatusInterceptor]
  · intro i id hmem
    rw [hev, hpe, hr2, mem_events_iff] at hmem
    rw [hidr, ← hprc]
    rcases hmem with ⟨-, h⟩ | ⟨-, h⟩ | h | h
    · exact Event.noConfusion h
    · exact Event.noConfusion h
    · obtain ⟨j, hj, _⟩ := hloop _ h
      injection hj with _ hj2
    · exact absurd h (hnotdef _ (fun h => Event.noConfusion h) rfl)

/-! ## Resolvers -/

/-- C3, the claim as stated fails for cookies: a cookie that is present with the
empty value is found (value `""`, found = true), while an absent cookie is not
found. -/
theorem cookieResolver_empty_value_is_found :
    (Request.Cookie { Cookies := [{ Name := "sid", Value := "" }] } "sid").1 =
      some { Name := "sid", Value := "" } ∧
    cookieResolver { Cookies := [{ Name := "sid", Value := "" }] } "sid" = (some "", true) ∧
    cookieResolver { Cookies := [] } "sid" = (none, false) := by
  decide

/-- C3 as amended: the header resolver reports not-found exactly when `Header.Get`
gives the empty string, which is so for an absent key and for a key whose first
value is `""` alike; the cookie resolver reports not-found for a name no cookie
of the request carries, and found, with the value of the first cookie of that
name, for a cookie that is present, its value empty or not. -/
theorem resolvers_found_amended (r : Request) (name : String) :
    ((headerResolver r name).2 = false ↔ r.Header.Get name = "") ∧
    (r.Header.lookup name = none → headerResolver r name = (some "", false)) ∧
    (∀ rest, r.Header.lookup name = some ("" :: rest) →
      headerResolver r name = (some "", false)) ∧
    ((∀ c ∈ r.Cookies, c.Name ≠ name) → cookieResolver r name = (none, false)) ∧
    (∀ c, name ≠ "" → r.Cookies.find? (fun c => c.Name = name) = some c →
      cookieResolver r name = (some c.Value, true)) := by
  refine ⟨?_, ?_, ?_, ?_, ?_⟩
  · simp [headerResolver]
  · intro h
    simp [headerResolver, Header.Get, h]
  · intro rest h
    simp [headerResolver, Header.Get, h]
  · intro h
    have hnone : r.Cookies.find? (fun c => c.Name = name) = none := by
      rw [List.find?_eq_none]
      intro c hc
      simpa using h c hc
    unfold cookieResolver Request.Cookie
    by_cases hn : name = "" <;> simp [hn, hnone]
  · intro c hn h
    unfold cookieResolver Request.Cookie
    simp [hn, h]

/-! ## `ReadJSONBody` -/

/-- C10: when the `Content-Type` header is not exactly `application/json`,
`ReadJSONBody` returns the error `unsupportedContentType`, leaves the destination
as it was and leaves the state, the body reader included, untouched; when the
header is `application/json` it returns an error exactly when reading the body
fails or the body is read and decoding it fails. -/
theorem ReadJSONBody_content_type {W α : Type} (Unmarshal : Bytes → α → α × Option Error)
    (m : requestContext) (dest : α) (s : State W) :
    (m.r.Header.Get HeaderContentType ≠ ContentTypeJSON →
      m.ReadJSONBody Unmarshal dest s = ((dest, some unsupportedContentType), s)) ∧
    (m.r.Header.Get HeaderContentType = ContentTypeJSON →
      ((m.ReadJSONBody Unmarshal dest s).1.2 ≠ none ↔
        ((ioReadAll s.body).1.2 ≠ none ∨
          ((ioReadAll s.body).1.2 = none ∧
            (Unmarshal (ioReadAll s.body).1.1 dest).2 ≠ none)))) := by
  constructor
  · intro h
    simp [requestContext.ReadJSONBody, h]
  · intro h
    unfold requestContext.ReadJSONBody
    rcases hr : ioReadAll s.body with ⟨⟨data, _ | e⟩, b⟩
    · rcases hu : Unmarshal data dest with ⟨d1, _ | e⟩ <;> simp [h, hu]
    · simp [h]

/-! ## The typed adapter -/

/-- C4: for a request type with a json-tagged field and a request on which
`ReadJSONBody` returns an error, the chain handler of the adapter makes exactly
two calls, `ReadJSONBody` and `SendText(500, "Error parsing body")`, so it runs no
enrichment pass and does not call the typed handler, and it returns
proceed = false; and `SendText` of `requestContext` sends to the sink the content
type `text/plain`, the status 500 and the text. -/
theorem typed_body_error_sends_text_500 {S Req Resp W : Type} (fields : List StructField)
    (h : Req → RequestContext S Req Resp → S → (Option Resp × Option Error) × S)
    (Enrich : EnrichFn Req) (zero : Req) (r : Request) (rc : RequestContext S Req Resp)
    (s : S) (m : requestContext) (st : State W)
    (hjson : ∃ f ∈ fields, (StructTag.Lookup f.Tag tagBody).2 = true)
    (herr : (rc.ReadJSONBody zero s).1.2 ≠ none) :
    (NewTypedMiddleware fields h).Handler Enrich zero r rc s =
      ((false, [Call.ReadJSONBody, Call.SendText 500 "Error parsing body"]),
       rc.SendText 500 "Error parsing body" (rc.ReadJSONBody zero s).2) ∧
    (m.SendText 500 "Error parsing body" st).w.w.calls =
      st.w.w.calls ++ [SinkCall.HeaderSet "Content-Type" "text/plain",
        SinkCall.WriteHeader 500, SinkCall.Write "Error parsing body"] := by
  constructor
  · have hb := (@NewTypedMiddleware_flags S Req Resp fields h).1.2 hjson
    rw [Handler_eq, if_pos ⟨hb, herr⟩]
  · unfold requestContext.SendText requestContext.Send
    have hlen : 0 < ("Error parsing body" : String).length := by decide
    have hct : ContentTypeText ≠ "" := by decide
    rw [if_pos hlen, if_pos hct]
    cases hw : st.w.w.writeErr <;>
      simp [responseStatusInterceptor.Write, responseStatusInterceptor.WriteHeader,
        responseStatusInterceptor.HeaderSet, Logger.Warnf, hw, HeaderContentType,
        ContentTypeText]

/-- C6: the chain handler of a typed adapter returns proceed = false on every
request, whatever the body read, the passes and the typed handler do; so in every
chain no handler registered after a typed adapter is called. -/
theorem typed_adapter_is_terminal {W Req Resp : Type}
    (c : typedMiddleware (State W) Req Resp) (Enrich : EnrichFn Req) (zero : Req)
    (Unmarshal : Bytes → Req → Req × Option Error)
    (Marshal : Option Resp → Bytes × Option Error) :
    (∀ (r : Request) (rc : RequestContext (State W) Req Resp) (s : State W),
      (c.Handler Enrich zero r rc s).1.1 = false) ∧
    (∀ (mw : middleware W) (pre post : List (HttpHandler W)) (w : ResponseWriter)
      (r : Request) (body : Body) (logs : List LogEntry) (clock : Int) (world : W),
      ∀ i ∈ invoked
        (({ mw with
            handlers := pre ++ [c.chainHandler Enrich zero Unmarshal Marshal] ++ post }
          ).ServeHTTP w r body logs clock world).events,
        i ≤ pre.length) := by
  constructor
  · intro r rc s
    exact Handler_proceed c Enrich zero r rc s
  · intro mw pre post w r body logs clock world i hi
    rw [invoked_ServeHTTP] at hi
    have hterm : ∀ r rc s, ((c.chainHandler Enrich zero Unmarshal Marshal) r rc s).1 = false := by
      intro r rc s
      exact Handler_proceed c Enrich zero r (rc.iface Unmarshal Marshal) s
    simp only [invoked, List.mem_filterMap] at hi
    obtain ⟨ev, hev, hsome⟩ := hi
    obtain ⟨j, rfl, hj⟩ := runHandlers_terminal pre post _ hterm 0 _ _ _ ev hev
    simp only [Option.some.injEq] at hsome
    omega

/-- C7: `NewTypedMiddleware` sets `readBody`, `readHeaders`, `readCookie`,
`readQuery` exactly when some field of the request type carries the `json`,
`header`, `cookie`, `query` tag; the chain handler calls `ReadJSONBody` only when
`readBody` is set and `Enrich` only for `header`, `cookie`, `query` and only when
the flag of that tag is set.  So a request type without a json-tagged field never
has its body read, and one without tagged fields has no body read and no
enrichment pass. -/
theorem typed_passes_follow_declared_tags {S Req Resp : Type} (fields : List StructField)
    (h : Req → RequestContext S Req Resp → S → (Option Resp × Option Error) × S)
    (Enrich : EnrichFn Req) (zero : Req) (r : Request) (rc : RequestContext S Req Resp)
    (s : S) :
    (((NewTypedMiddleware fields h).readBody = true ↔
        ∃ f ∈ fields, (StructTag.Lookup f.Tag tagBody).2 = true) ∧
      ((NewTypedMiddleware fields h).readHeaders = true ↔
        ∃ f ∈ fields, (StructTag.Lookup f.Tag tagHeader).2 = true) ∧
      ((NewTypedMiddleware fields h).readCookie = true ↔
        ∃ f ∈ fields, (StructTag.Lookup f.Tag tagCookie).2 = true) ∧
      ((NewTypedMiddleware fields h).readQuery = true ↔
        ∃ f ∈ fields, (StructTag.Lookup f.Tag tagQuery).2 = true)) ∧
    ((Call.ReadJSONBody ∈ ((NewTypedMiddleware fields h).Handler Enrich zero r rc s).1.2 →
        (NewTypedMiddleware fields h).readBody = true) ∧
      (∀ tag, Call.Enrich tag ∈ ((NewTypedMiddleware fields h).Handler Enrich zero r rc s).1.2 →
        (tag = tagHeader ∧ (NewTypedMiddleware fields h).readHeaders = true) ∨
        (tag = tagCookie ∧ (NewTypedMiddleware fields h).readCookie = true) ∨
        (tag = tagQuery ∧ (NewTypedMiddleware fields h).readQuery = true))) ∧
    ((∀ f ∈ fields, (StructTag.Lookup f.Tag tagBody).2 = false) →
      Call.ReadJSONBody ∉ ((NewTypedMiddleware fields h).Handler Enrich zero r rc s).1.2) ∧
    ((∀ f ∈ fields, f.Tag = []) →
      Call.ReadJSONBody ∉ ((NewTypedMiddleware fields h).Handler Enrich zero r rc s).1.2 ∧
      ∀ tag, Call.Enrich tag ∉
        ((NewTypedMiddleware fields h).Handler Enrich zero r rc s).1.2) := by
  have hflags := @NewTypedMiddleware_flags S Req Resp fields h
  have hcalls := Handler_calls (NewTypedMiddleware fields h) Enrich zero r rc s
  have hbody : Call.ReadJSONBody ∈
      ((NewTypedMiddleware fields h).Handler Enrich zero r rc s).1.2 →
      (NewTypedMiddleware fields h).readBody = true := by
    intro hmem
    rcases hcalls _ hmem with ⟨-, h1⟩ | ⟨h1, -⟩ | ⟨h1, -⟩ | ⟨h1, -⟩ | ⟨h1, -⟩ | ⟨q, h1⟩ | ⟨o, h1⟩
    · exact h1
    all_goals exact Call.noConfusion h1
  have henrich : ∀ tag,
      Call.Enrich tag ∈ ((NewTypedMiddleware fields h).Handler Enrich zero r rc s).1.2 →
        (tag = tagHeader ∧ (NewTypedMiddleware fields h).readHeaders = true) ∨
        (tag = tagCookie ∧ (NewTypedMiddleware fields h).readCookie = true) ∨
        (tag = tagQuery ∧ (NewTypedMiddleware fields h).readQuery = true) := by
    intro tag hmem
    rcases hcalls _ hmem with ⟨h1, -⟩ | ⟨h1, h2⟩ | ⟨h1, h2⟩ | ⟨h1, h2⟩ | ⟨h1, -⟩ | ⟨q, h1⟩ |
      ⟨o, h1⟩
    · exact Call.noConfusion h1
    · injection h1 with h1
      exact Or.inl ⟨h1, h2⟩
    · injection h1 with h1
      exact Or.inr (Or.inl ⟨h1, h2⟩)
    · injection h1 with h1
      exact Or.inr (Or.inr ⟨h1, h2⟩)
    all_goals exact Call.noConfusion h1
  refine ⟨hflags, ⟨hbody, henrich⟩, ?_, ?_⟩
  · intro hno hmem
    obtain ⟨f, hf, hf2⟩ := hflags.1.1 (hbody hmem)
    rw [hno f hf] at hf2
    exact Bool.false_ne_true hf2
  · intro hno
    have hlook : ∀ key, ∀ f ∈ fields, (StructTag.Lookup f.Tag key).2 = false := by
      intro key f hf
      simp [StructTag.Lookup, hno f hf]
    have hnone : ∀ key, ¬ ∃ f ∈ fields, (StructTag.Lookup f.Tag key).2 = true := by
      rintro key ⟨f, hf, hf2⟩
      rw [hlook key f hf] at hf2
      exact Bool.false_ne_true hf2
    constructor
    · intro hmem
      exact hnone _ (hflags.1.1 (hbody hmem))
    · intro tag hmem
      rcases henrich tag hmem with ⟨-, h2⟩ | ⟨-, h2⟩ | ⟨-, h2⟩
      · exact hnone _ (hflags.2.1.1 h2)
      · exact hnone _ (hflags.2.2.1.1 h2)
      · exact hnone _ (hflags.2.2.2.1 h2)

theorem passCalls_kind {S Req Resp : Type} (c : typedMiddleware S Req Resp)
    (call : Call Req Resp)
    (hmem : call ∈ bodyCalls c ++ headerCalls c ++ cookieCalls c ++ queryCalls c) :
    call.isSend = false ∧ call.isHandler = false := by
  simp only [List.mem_append, mem_bodyCalls, mem_headerCalls, mem_cookieCalls,
    mem_queryCalls] at hmem
  rcases hmem with ((⟨rfl, -⟩ | ⟨rfl, -⟩) | ⟨rfl, -⟩) | ⟨rfl, -⟩ <;> exact ⟨rfl, rfl⟩

theorem passCalls_countP {S Req Resp : Type} (c : typedMiddleware S Req Resp) :
    (bodyCalls c ++ headerCalls c ++ cookieCalls c ++ queryCalls c).countP
      Call.isHandler = 0 := by
  rw [List.countP_eq_zero]
  intro call hmem
  rw [(passCalls_kind c call hmem).2]
  exact Bool.false_ne_true

/-- C8: on a request on which the body read (when required) and every required
enrichment pass succeed, the chain handler calls the typed handler exactly once,
after the calls of all required passes, with the enriched record and the request
context; when the typed handler returns a result and no error, the only call
after it is `SendJSON(200, result)` with that result, and proceed = false. -/
theorem typed_success_calls_handler_once_and_sends_json {S Req Resp : Type}
    (c : typedMiddleware S Req Resp) (Enrich : EnrichFn Req) (zero : Req) (r : Request)
    (rc : RequestContext S Req Resp) (s : S)
    (hbody : c.readBody = true → (rc.ReadJSONBody zero s).1.2 = none)
    (hheader : c.readHeaders = true →
      (Enrich (recordAfterBody c zero rc s) tagHeader (headerResolver r)).2 = none)
    (hcookie : c.readCookie = true →
      (Enrich (recordAfterHeaders c Enrich zero r rc s) tagCookie (cookieResolver r)).2 = none)
    (hquery : c.readQuery = true →
      (Enrich (recordAfterCookie c Enrich zero r rc s) tagQuery (queryResolver r)).2 = none) :
    (c.Handler Enrich zero r rc s).1.2.countP Call.isHandler = 1 ∧
    (∃ tail, (c.Handler Enrich zero r rc s).1.2 =
        bodyCalls c ++ headerCalls c ++ cookieCalls c ++ queryCalls c ++
          Call.handler (recordAfterQuery c Enrich zero r rc s) :: tail ∧
        ∀ call ∈ tail, call.isHandler = false) ∧
    ((c.handler (recordAfterQuery c Enrich zero r rc s) rc
        (stateAfterBody c zero rc s)).1.2 = none →
      c.Handler Enrich zero r rc s =
        ((false, bodyCalls c ++ headerCalls c ++ cookieCalls c ++ queryCalls c ++
            [Call.handler (recordAfterQuery c Enrich zero r rc s),
             Call.SendJSON 200
               (c.handler (recordAfterQuery c Enrich zero r rc s) rc
                 (stateAfterBody c zero rc s)).1.1]),
         rc.SendJSON 200
           (c.handler (recordAfterQuery c Enrich zero r rc s) rc
             (stateAfterBody c zero rc s)).1.1
           (c.handler (recordAfterQuery c Enrich zero r rc s) rc
             (stateAfterBody c zero rc s)).2)) := by
  have nb : ¬ (c.readBody = true ∧ (rc.ReadJSONBody zero s).1.2 ≠ none) :=
    fun hx => hx.2 (hbody hx.1)
  have nh : ¬ (c.readHeaders = true ∧
      (Enrich (recordAfterBody c zero rc s) tagHeader (headerResolver r)).2 ≠ none) :=
    fun hx => hx.2 (hheader hx.1)
  have nc : ¬ (c.readCookie = true ∧
      (Enrich (recordAfterHeaders c Enrich zero r rc s) tagCookie (cookieResolver r)).2
        ≠ none) :=
    fun hx => hx.2 (hcookie hx.1)
  have nq : ¬ (c.readQuery = true ∧
      (Enrich (recordAfterCookie c Enrich zero r rc s) tagQuery (queryResolver r)).2
        ≠ none) :=
    fun hx => hx.2 (hquery hx.1)
  rw [Handler_eq, if_neg nb, if_neg nh, if_neg nc, if_neg nq]
  by_cases he : (c.handler (recordAfterQuery c Enrich zero r rc s) rc
      (stateAfterBody c zero rc s)).1.2 = none
  · rw [if_neg (not_not.2 he)]
    refine ⟨?_, ⟨[Call.SendJSON 200 _], rfl, ?_⟩, fun _ => rfl⟩
    · rw [List.countP_append, passCalls_countP]
      simp [Call.isHandler]
    · intro call hcall
      rw [List.mem_singleton.1 hcall]
      rfl
  · rw [if_pos he]
    refine ⟨?_, ⟨[], rfl, ?_⟩, fun h => absurd h he⟩
    · rw [List.countP_append, passCalls_countP]
      simp [Call.isHandler]
    · intro call hcall
      simp at hcall

/-- C9: once the body read (when required) has succeeded, an error of the header,
cookie or query pass (tried in that order) ends the chain handler at once: no
later pass runs, the typed handler is not called, none of `Send`, `SendText`,
`SendJSON` is called, the state is as the body pass left it, and proceed = false;
and an error of the typed handler ends it with no `Send*` call and
proceed = false. -/
theorem typed_enrich_or_handler_error_is_silent {S Req Resp : Type}
    (c : typedMiddleware S Req Resp) (Enrich : EnrichFn Req) (zero : Req) (r : Request)
    (rc : RequestContext S Req Resp) (s : S)
    (hbody : c.readBody = true → (rc.ReadJSONBody zero s).1.2 = none) :
    (c.readHeaders = true →
      (Enrich (recordAfterBody c zero rc s) tagHeader (headerResolver r)).2 ≠ none →
      c.Handler Enrich zero r rc s =
        ((false, bodyCalls c ++ [Call.Enrich tagHeader]), stateAfterBody c zero rc s)) ∧
    ((c.readHeaders = true →
        (Enrich (recordAfterBody c zero rc s) tagHeader (headerResolver r)).2 = none) →
      c.readCookie = true →
      (Enrich (recordAfterHeaders c Enrich zero r rc s) tagCookie (cookieResolver r)).2
        ≠ none →
      c.Handler Enrich zero r rc s =
        ((false, bodyCalls c ++ headerCalls c ++ [Call.Enrich tagCookie]),
         stateAfterBody c zero rc s)) ∧
    ((c.readHeaders = true →
        (Enrich (recordAfterBody c zero rc s) tagHeader (headerResolver r)).2 = none) →
      (c.readCookie = true →
        (Enrich (recordAfterHeaders c Enrich zero r rc s) tagCookie (cookieResolver r)).2
          = none) →
      c.readQuery = true →
      (Enrich (recordAfterCookie c Enrich zero r rc s) tagQuery (queryResolver r)).2
        ≠ none →
      c.Handler Enrich zero r rc s =
        ((false, bodyCalls c ++ headerCalls c ++ cookieCalls c ++ [Call.Enrich tagQuery]),
         stateAfterBody c zero rc s)) ∧
    ((c.readHeaders = true →
        (Enrich (recordAfterBody c zero rc s) tagHeader (headerResolver r)).2 = none) →
      (c.readCookie = true →
        (Enrich (recordAfterHeaders c Enrich zero r rc s) tagCookie (cookieResolver r)).2
          = none) →
      (c.readQuery = true →
        (Enrich (recordAfterCookie c Enrich zero r rc s) tagQuery (queryResolver r)).2
          = none) →
      (c.handler (recordAfterQuery c Enrich zero r rc s) rc
        (stateAfterBody c zero rc s)).1.2 ≠ none →
      c.Handler Enrich zero r rc s =
        ((false, bodyCalls c ++ headerCalls c ++ cookieCalls c ++ queryCalls c ++
            [Call.handler (recordAfterQuery c Enrich zero r rc s)]),
         (c.handler (recordAfterQuery c Enrich zero r rc s) rc
           (stateAfterBody c zero rc s)).2)) ∧
    (((c.readHeaders = true ∧
          (Enrich (recordAfterBody c zero rc s) tagHeader (headerResolver r)).2 ≠ none) ∨
        (c.readCookie = true ∧
          (Enrich (recordAfterHeaders c Enrich zero r rc s) tagCookie (cookieResolver r)).2
            ≠ none) ∨
        (c.readQuery = true ∧
          (Enrich (recordAfterCookie c Enrich zero r rc s) tagQuery (queryResolver r)).2
            ≠ none)) →
      ∀ call ∈ (c.Handler Enrich zero r rc s).1.2,
        call.isSend = false ∧ call.isHandler = false) ∧
    ((c.handler (recordAfterQuery c Enrich zero r rc s) rc
        (stateAfterBody c zero rc s)).1.2 ≠ none →
      ∀ call ∈ (c.Handler Enrich zero r rc s).1.2, call.isSend = false) := by
  have nb : ¬ (c.readBody = true ∧ (rc.ReadJSONBody zero s).1.2 ≠ none) :=
    fun hx => hx.2 (hbody hx.1)
  have k1 : ∀ call ∈ bodyCalls c ++ [Call.Enrich tagHeader],
      call.isSend = false ∧ call.isHandler = false := by
    intro call hcall
    simp only [List.mem_append, mem_bodyCalls, List.mem_singleton] at hcall
    rcases hcall with ⟨rfl, -⟩ | rfl <;> exact ⟨rfl, rfl⟩
  have k2 : ∀ call ∈ bodyCalls c ++ headerCalls c ++ [Call.Enrich tagCookie],
      call.isSend = false ∧ call.isHandler = false := by
    intro call hcall
    simp only [List.mem_append, mem_bodyCalls, mem_headerCalls, List.mem_singleton] at hcall
    rcases hcall with (⟨rfl, -⟩ | ⟨rfl, -⟩) | rfl <;> exact ⟨rfl, rfl⟩
  have k3 : ∀ call ∈ bodyCalls c ++ headerCalls c ++ cookieCalls c ++ [Call.Enrich tagQuery],
      call.isSend = false ∧ call.isHandler = false := by
    intro call hcall
    simp only [List.mem_append, mem_bodyCalls, mem_headerCalls, mem_cookieCalls,
      List.mem_singleton] at hcall
    rcases hcall with ((⟨rfl, -⟩ | ⟨rfl, -⟩) | ⟨rfl, -⟩) | rfl <;> exact ⟨rfl, rfl⟩
  refine ⟨?_, ?_, ?_, ?_, ?_, ?_⟩
  · intro hf he
    rw [Handler_eq, if_neg nb, if_pos ⟨hf, he⟩]
  · intro hh hf he
    rw [Handler_eq, if_neg nb, if_neg (fun hx => hx.2 (hh hx.1)), if_pos ⟨hf, he⟩]
  · intro hh hc hf he
    rw [Handler_eq, if_neg nb, if_neg (fun hx => hx.2 (hh hx.1)),
      if_neg (fun hx => hx.2 (hc hx.1)), if_pos ⟨hf, he⟩]
  · intro hh hc hq he
    rw [Handler_eq, if_neg nb, if_neg (fun hx => hx.2 (hh hx.1)),
      if_neg (fun hx => hx.2 (hc hx.1)), if_neg (fun hx => hx.2 (hq hx.1)), if_pos he]
  · intro hfail call hcall
    rw [Handler_eq, if_neg nb] at hcall
    by_cases h2 : c.readHeaders = true ∧
        (Enrich (recordAfterBody c zero rc s) tagHeader (headerResolver r)).2 ≠ none
    · rw [if_pos h2] at hcall
      exact k1 call hcall
    · rw [if_neg h2] at hcall
      by_cases h3 : c.readCookie = true ∧
          (Enrich (recordAfterHeaders c Enrich zero r rc s) tagCookie (cookieResolver r)).2
            ≠ none
      · rw [if_pos h3] at hcall
        exact k2 call hcall
      · rw [if_neg h3] at hcall
        by_cases h4 : c.readQuery = true ∧
            (Enrich (recordAfterCookie c Enrich zero r rc s) tagQuery (queryResolver r)).2
              ≠ none
        · rw [if_pos h4] at hcall
          exact k3 call hcall
        · rcases hfail with h | h | h
          · exact absurd h h2
          · exact absurd h h3
          · exact absurd h h4
  · intro he call hcall
    rw [Handler_eq, if_neg nb] at hcall
    by_cases h2 : c.readHeaders = true ∧
        (Enrich (recordAfterBody c zero rc s) tagHeader (headerResolver r)).2 ≠ none
    · rw [if_pos h2] at hcall
      exact (k1 call hcall).1
    · rw [if_neg h2] at hcall
      by_cases h3 : c.readCookie = true ∧
          (Enrich (recordAfterHeaders c Enrich zero r rc s) tagCookie (cookieResolver r)).2
            ≠ none
      · rw [if_pos h3] at hcall
        exact (k2 call hcall).1
      · rw [if_neg h3] at hcall
        by_cases h4 : c.readQuery = true ∧
            (Enrich (recordAfterCookie c Enrich zero r rc s) tagQuery (queryResolver r)).2
              ≠ none
        · rw [if_pos h4] at hcall
          exact (k3 call hcall).1
        · rw [if_neg h4, if_pos he] at hcall
          rcases List.mem_append.1 hcall with h | h
          · exact (passCalls_kind c call h).1
          · rw [List.mem_singleton.1 h]
            rfl

/-! ## The theorems at concrete requests -/

/-- The chain `NewMiddleware(log).WithMetrics(sink, "ping").Use(stop)` serves a
request: the only call is the one of the handler, the interceptor holds the
status 204, and no metrics call is made. -/
theorem ServeHTTP_after_WithMetrics_example :
    ((((NewMiddleware {}).WithMetrics Example.sink "ping").Use Example.stop).ServeHTTP
      {} {} {} [] 0 ()).events = [Event.handler 0 ""] ∧
    ((((NewMiddleware {}).WithMetrics Example.sink "ping").Use Example.stop).ServeHTTP
      {} {} {} [] 0 ()).final.w.statusCode = 204 := by
  decide

/-- C2 at concrete chains: of `pass, stop, pass` the first two handlers are called,
of `pass, pass` both. -/
theorem ServeHTTP_invokes_handlers_in_order_witness :
    invoked ((List.foldl middleware.Use { (NewMiddleware {} : middleware Unit) with handlers := [] }
        [Example.pass, Example.stop, Example.pass]).ServeHTTP {} {} {} [] 0 ()).events
      = List.range 2 ∧
    invoked ((List.foldl middleware.Use { (NewMiddleware {} : middleware Unit) with handlers := [] }
        [Example.pass, Example.pass]).ServeHTTP {} {} {} [] 0 ()).events
      = List.range 2 :=
  ⟨(ServeHTTP_invokes_handlers_in_order (NewMiddleware {})
      [Example.pass, Example.stop, Example.pass] {} {} {} [] 0 ()).2.1 1
      (by decide) (by decide) (by decide),
   (ServeHTTP_invokes_handlers_in_order (NewMiddleware {})
      [Example.pass, Example.pass] {} {} {} [] 0 ()).2.2 (by decide)⟩

/-- C3 as amended, at a request with the header `X-Token` empty and the cookie
`sid` empty: the empty header and the absent header are not found, the absent
cookie is not found, the empty cookie is found. -/
theorem resolvers_found_amended_witness :
    headerResolver { Header := [("X-Token", [""])], Cookies := [{ Name := "sid", Value := "" }] }
      "X-Token" = (some "", false) ∧
    headerResolver { Header := [("X-Token", [""])], Cookies := [{ Name := "sid", Value := "" }] }
      "X-Other" = (some "", false) ∧
    cookieResolver { Header := [("X-Token", [""])], Cookies := [{ Name := "sid", Value := "" }] }
      "other" = (none, false) ∧
    cookieResolver { Header := [("X-Token", [""])], Cookies := [{ Name := "sid", Value := "" }] }
      "sid" = (some "", true) :=
  ⟨(resolvers_found_amended _ "X-Token").2.2.1 [] (by decide),
   (resolvers_found_amended _ "X-Other").2.1 (by decide),
   (resolvers_found_amended _ "other").2.2.2.1 (by decide),
   (resolvers_found_amended _ "sid").2.2.2.2 { Name := "sid", Value := "" } (by decide)
     (by decide)⟩

/-- C4 at the scenario with the payload `not-json`: the body read fails, and the
chain handler answers with `SendText(500, ..)` and nothing else. -/
theorem typed_body_error_sends_text_500_witness :
    (∃ f ∈ Example.fields "query", (StructTag.Lookup f.Tag tagBody).2 = true) ∧
    ((Example.context (Example.request "5")).ReadJSONBody Example.zero
      (Example.start "not-json")).1.2 ≠ none ∧
    ((NewTypedMiddleware (Example.fields "query") Example.greet).Handler
        (Example.Enrich "query") Example.zero (Example.request "5")
        (Example.context (Example.request "5")) (Example.start "not-json")).1 =
      (false, [Call.ReadJSONBody, Call.SendText 500 "Error parsing body"]) :=
  ⟨by decide, by decide,
   congrArg Prod.fst
     (typed_body_error_sends_text_500 (Example.fields "query") Example.greet
       (Example.Enrich "query") Example.zero (Example.request "5")
       (Example.context (Example.request "5")) (Example.start "not-json")
       { log := {}, r := {}, requestId := "" } (Example.start "")
       (by decide) (by decide)).1⟩

/-- C7 at concrete request types: the scenario type has the body and the query
flag only; a type without a json tag has no body read whatever the payload; a
type without tags has no body read and no enrichment pass. -/
theorem typed_passes_follow_declared_tags_witness :
    ((NewTypedMiddleware (Example.fields "query") Example.greet).readBody = true ∧
      (NewTypedMiddleware (Example.fields "query") Example.greet).readQuery = true) ∧
    Call.ReadJSONBody ∉
      ((NewTypedMiddleware [{ Name := "Limit", Tag := [("query", "limit")] }]
          Example.greet).Handler (Example.Enrich "query") Example.zero (Example.request "5")
        (Example.context (Example.request "5")) (Example.start "payload")).1.2 ∧
    (Call.ReadJSONBody ∉
        ((NewTypedMiddleware Example.untagged Example.greet).Handler
          (Example.Enrich "query") Example.zero (Example.request "5")
          (Example.context (Example.request "5")) (Example.start "payload")).1.2 ∧
      ∀ tag, Call.Enrich tag ∉
        ((NewTypedMiddleware Example.untagged Example.greet).Handler
          (Example.Enrich "query") Example.zero (Example.request "5")
          (Example.context (Example.request "5")) (Example.start "payload")).1.2) :=
  ⟨⟨(typed_passes_follow_declared_tags (Example.fields "query") Example.greet
        (Example.Enrich "query") Example.zero (Example.request "5")
        (Example.context (Example.request "5")) (Example.start "payload")).1.1.2 (by decide),
     (typed_passes_follow_declared_tags (Example.fields "query") Example.greet
        (Example.Enrich "query") Example.zero (Example.request "5")
        (Example.context (Example.request "5")) (Example.start "payload")).1.2.2.2.2
        (by decide)⟩,
   (typed_passes_follow_declared_tags [{ Name := "Limit", Tag := [("query", "limit")] }]
      Example.greet (Example.Enrich "query") Example.zero (Example.request "5")
      (Example.context (Example.request "5")) (Example.start "payload")).2.2.1 (by decide),
   (typed_passes_follow_declared_tags Example.untagged Example.greet
      (Example.Enrich "query") Example.zero (Example.request "5")
      (Example.context (Example.request "5")) (Example.start "payload")).2.2.2 (by decide)⟩

/-- C8 at the scenario of the spec: body `name = a`, query `limit=5`; the typed
handler is called once with the record `(a, 5)` and the answer is
`SendJSON(200, "a")`. -/
theorem typed_success_calls_handler_once_and_sends_json_witness :
    ((NewTypedMiddleware (Example.fields "query") Example.greet).Handler
        (Example.Enrich "query") Example.zero (Example.request "5")
        (Example.context (Example.request "5"))
        (Example.start "\x7b\"name\":\"a\"\x7d")).1 =
      (false, [Call.ReadJSONBody, Call.Enrich tagQuery,
        Call.handler { Name := "a", Limit := 5 }, Call.SendJSON 200 (some "a")]) :=
  (congrArg Prod.fst
    ((typed_success_calls_handler_once_and_sends_json
      (NewTypedMiddleware (Example.fields "query") Example.greet)
      (Example.Enrich "query") Example.zero (Example.request "5")
      (Example.context (Example.request "5")) (Example.start "\x7b\"name\":\"a\"\x7d")
      (by decide) (by decide) (by decide) (by decide)).2.2 (by decide))).trans rfl

/-- C9 at concrete requests: a header, a cookie and a query value `abc` for the
integer field, and a typed handler that fails. -/
theorem typed_enrich_or_handler_error_is_silent_witness :
    ((NewTypedMiddleware (Example.fields "header") Example.greet).Handler
        (Example.Enrich "header") Example.zero
        { Header := [("Content-Type", ["application/json"]), ("limit", ["abc"])] }
        (Example.context
          { Header := [("Content-Type", ["application/json"]), ("limit", ["abc"])] })
        (Example.start "\x7b\"name\":\"a\"\x7d")).1 =
      (false, [Call.ReadJSONBody, Call.Enrich tagHeader]) ∧
    ((NewTypedMiddleware (Example.fields "cookie") Example.greet).Handler
        (Example.Enrich "cookie") Example.zero
        { Header := [("Content-Type", ["application/json"])],
          Cookies := [{ Name := "limit", Value := "abc" }] }
        (Example.context
          { Header := [("Content-Type", ["application/json"])],
            Cookies := [{ Name := "limit", Value := "abc" }] })
        (Example.start "\x7b\"name\":\"a\"\x7d")).1 =
      (false, [Call.ReadJSONBody, Call.Enrich tagCookie]) ∧
    ((NewTypedMiddleware (Example.fields "query") Example.greet).Handler
        (Example.Enrich "query") Example.zero (Example.request "abc")
        (Example.context (Example.request "abc"))
        (Example.start "\x7b\"name\":\"a\"\x7d")).1 =
      (false, [Call.ReadJSONBody, Call.Enrich tagQuery]) ∧
    ((NewTypedMiddleware (Example.fields "query") Example.refuse).Handler
        (Example.Enrich "query") Example.zero (Example.request "5")
        (Example.context (Example.request "5"))
        (Example.start "\x7b\"name\":\"a\"\x7d")).1 =
      (false, [Call.ReadJSONBody, Call.Enrich tagQuery,
        Call.handler { Name := "a", Limit := 5 }]) :=
  ⟨(congrArg Prod.fst
      ((typed_enrich_or_handler_error_is_silent
        (NewTypedMiddleware (Example.fields "header") Example.greet)
        (Example.Enrich "header") Example.zero
        { Header := [("Content-Type", ["application/json"]), ("limit", ["abc"])] }
        (Example.context
          { Header := [("Content-Type", ["application/json"]), ("limit", ["abc"])] })
        (Example.start "\x7b\"name\":\"a\"\x7d") (by decide)).1 (by decide) (by decide))).trans
      rfl,
   (congrArg Prod.fst
      ((typed_enrich_or_handler_error_is_silent
        (NewTypedMiddleware (Example.fields "cookie") Example.greet)
        (Example.Enrich "cookie") Example.zero
        { Header := [("Content-Type", ["application/json"])],
          Cookies := [{ Name := "limit", Value := "abc" }] }
        (Example.context
          { Header := [("Content-Type", ["application/json"])],
            Cookies := [{ Name := "limit", Value := "abc" }] })
        (Example.start "\x7b\"name\":\"a\"\x7d") (by decide)).2.1 (by decide) (by decide)
        (by decide))).trans rfl,
   (congrArg Prod.fst
      ((typed_enrich_or_handler_error_is_silent
        (NewTypedMiddleware (Example.fields "query") Example.greet)
        (Example.Enrich "query") Example.zero (Example.request "abc")
        (Example.context (Example.request "abc"))
        (Example.start "\x7b\"name\":\"a\"\x7d") (by decide)).2.2.1 (by decide) (by decide)
        (by decide) (by decide))).trans rfl,
   (congrArg Prod.fst
      ((typed_enrich_or_handler_error_is_silent
        (NewTypedMiddleware (Example.fields "query") Example.refuse)
        (Example.Enrich "query") Example.zero (Example.request "5")
        (Example.context (Example.request "5"))
        (Example.start "\x7b\"name\":\"a\"\x7d") (by decide)).2.2.2.1 (by decide) (by decide)
        (by decide) (by decide))).trans rfl⟩

/-- C10 at concrete requests: a content type with parameters and an absent content
type give `unsupportedContentType` with the destination and the state untouched
(the body reader has not been drained); with `application/json` and the payload
`not-json` the decoding error is returned. -/
theorem ReadJSONBody_content_type_witness :
    requestContext.ReadJSONBody Example.Unmarshal
        { log := {}, requestId := "",
          r := { Header := [("Content-Type", ["application/json; charset=utf-8"])] } }
        Example.zero (Example.start "\x7b\"name\":\"a\"\x7d") =
      ((Example.zero, some unsupportedContentType), Example.start "\x7b\"name\":\"a\"\x7d") ∧
    requestContext.ReadJSONBody Example.Unmarshal
        { log := {}, requestId := "", r := { Header := [] } }
        Example.zero (Example.start "\x7b\"name\":\"a\"\x7d") =
      ((Example.zero, some unsupportedContentType), Example.start "\x7b\"name\":\"a\"\x7d") ∧
    (requestContext.ReadJSONBody Example.Unmarshal
        { log := {}, requestId := "", r := Example.request "5" }
        Example.zero (Example.start "not-json")).1.2 ≠ none :=
  ⟨(ReadJSONBody_content_type Example.Unmarshal _ Example.zero _).1 (by decide),
   (ReadJSONBody_content_type Example.Unmarshal _ Example.zero _).1 (by decide),
   ((ReadJSONBody_content_type Example.Unmarshal
      { log := {}, requestId := "", r := Example.request "5" } Example.zero
      (Example.start "not-json")).2 (by decide)).2 (Or.inr ⟨by decide, by decide⟩)⟩

/-- C5 at concrete requests, with a generator configured: the inbound id `abc` is
kept and the generator is not called; without an inbound id the generated id is
used and set as the response header. -/
theorem ServeHTTP_request_id_witness :
    ((((NewMiddleware {}).WithRequestIdGenerator (some Example.generator)).Use
        Example.stop).ServeHTTP {} { Header := [("X-Request-ID", ["abc"])] } {} [] 0 ()).requestId
      = "abc" ∧
    Event.generator ∉
      ((((NewMiddleware {}).WithRequestIdGenerator (some Example.generator)).Use
        Example.stop).ServeHTTP {} { Header := [("X-Request-ID", ["abc"])] } {} [] 0 ()).events ∧
    ((((NewMiddleware {}).WithRequestIdGenerator (some Example.generator)).Use
        Example.stop).ServeHTTP {} {} {} [] 0 ()).requestId = "gen" ∧
    Event.HeaderSet "X-Request-ID" "gen" ∈
      ((((NewMiddleware {}).WithRequestIdGenerator (some Example.generator)).Use
        Example.stop).ServeHTTP {} {} {} [] 0 ()).events :=
  ⟨(ServeHTTP_request_id
      (((NewMiddleware {}).WithRequestIdGenerator (some Example.generator)).Use Example.stop)
      {} { Header := [("X-Request-ID", ["abc"])] } {} [] 0 ()).1.trans rfl,
   fun hmem =>
     absurd ((ServeHTTP_request_id
       (((NewMiddleware {}).WithRequestIdGenerator (some Example.generator)).Use Example.stop)
       {} { Header := [("X-Request-ID", ["abc"])] } {} [] 0 ()).2.1.1 hmem).1 (by decide),
   (ServeHTTP_request_id
      (((NewMiddleware {}).WithRequestIdGenerator (some Example.generator)).Use Example.stop)
      {} {} {} [] 0 ()).1.trans rfl,
   (ServeHTTP_request_id
      (((NewMiddleware {}).WithRequestIdGenerator (some Example.generator)).Use Example.stop)
      {} {} {} [] 0 ()).2.2.1.2 (by decide)⟩

/-- C6 at a concrete chain `pass, adapter, pass` and the scenario request: the
handlers at positions 0 and 1 are called, the one after the adapter is not. -/
theorem typed_adapter_is_terminal_witness :
    invoked
      (({ (NewMiddleware {} : middleware Unit) with
          handlers := [Example.pass] ++
            [(NewTypedMiddleware (Example.fields "query") Example.greet).chainHandler
              (Example.Enrich "query") Example.zero Example.Unmarshal Example.Marshal] ++
            [Example.pass] }).ServeHTTP {} (Example.request "5")
        { data := "\x7b\"name\":\"a\"\x7d" } [] 0 ()).events = [0, 1] ∧
    ∀ i ∈ invoked
      (({ (NewMiddleware {} : middleware Unit) with
          handlers := [Example.pass] ++
            [(NewTypedMiddleware (Example.fields "query") Example.greet).chainHandler
              (Example.Enrich "query") Example.zero Example.Unmarshal Example.Marshal] ++
            [Example.pass] }).ServeHTTP {} (Example.request "5")
        { data := "\x7b\"name\":\"a\"\x7d" } [] 0 ()).events, i ≤ 1 :=
  ⟨by decide,
   (typed_adapter_is_terminal (NewTypedMiddleware (Example.fields "query") Example.greet)
      (Example.Enrich "query") Example.zero Example.Unmarshal Example.Marshal).2
      (NewMiddleware {}) [Example.pass] [Example.pass] {} (Example.request "5")
      { data := "\x7b\"name\":\"a\"\x7d" } [] 0 ()⟩

end HappySrv
